import Mathlib

/-!
# Verification of the pychromecast discovery registry

Shallow embedding of `src/pychromecast/discovery.py` and the discovery-related
parts of `src/pychromecast/__init__.py`, together with theorems settling the
specification claims about the discovery registry, the resolution retry loop,
the query sessions and the browser lifecycle.

The Python dict `CastListener.services` is modelled as an insertion-ordered
association list (Python 3.7+ dicts iterate in insertion order, which the
removal scan relies on); Python sets of announcement names are modelled as
`Finset String`; the optional callbacks are modelled by presence flags plus an
explicit list of callback invocations returned by each operation.
-/

set_option maxRecDepth 4000

abbrev Name := String
abbrev UUID := String

/-- Python `uuid.UUID(s)`: modelled as the identity on the decoded identity
string.  (UUID normalisation and the malformed-identity error path are outside
every claim treated here; all identities used below are well formed.) -/
def pyUUID (s : String) : UUID := s

/-- The zeroconf `ServiceInfo` as read by `_add_update_service`: the decoded
property bag, the parsed addresses, the advertised server name and the port. -/
structure ServiceInfo where
  properties : List (String × String)
  addresses : List String
  server : String
  port : Nat
deriving DecidableEq

/-- The per-identity tuple stored in `CastListener.services`
(`discovery.py` lines 109-116):
`(names, uuid, model_name, friendly_name, host, port)`. -/
structure CastRecord where
  names : Finset Name
  uuid : UUID
  model_name : Option String
  friendly_name : Option String
  host : String
  port : Nat
deriving DecidableEq

/-- One callback invocation made by the listener: which of the three optional
callbacks ran and with which arguments (`remove_callback` additionally
receives the record tuple as the callback sees it). -/
inductive Notification where
  | added (uuid : UUID) (name : Name)
  | updated (uuid : UUID) (name : Name)
  | removed (uuid : UUID) (name : Name) (record : CastRecord)
deriving DecidableEq

/-- `CastListener` state: the identity-to-record dict `services`, plus whether
each of the three optional constructor callbacks was supplied. -/
structure CastListener where
  services : List (UUID × CastRecord)
  add_callback : Bool
  remove_callback : Bool
  update_callback : Bool
deriving DecidableEq

/-- Lookup in an association list (Python `d.get(k)` / `k in d`). -/
def lookupA {α β : Type} [DecidableEq α] (l : List (α × β)) (a : α) : Option β :=
  match l with
  | [] => none
  | p :: rest => if p.1 = a then some p.2 else lookupA rest a

/-- Net effect on a Python dict of `d.setdefault(k, …)` followed by
`d[k] = v`: replace the value in place when the key is present, append the
entry otherwise. -/
def storeAssoc {α β : Type} [DecidableEq α] (l : List (α × β)) (a : α) (b : β) :
    List (α × β) :=
  match l with
  | [] => [(a, b)]
  | p :: rest => if p.1 = a then (a, b) :: rest else p :: storeAssoc rest a b

/-- The scan inside `CastListener.remove_service` (`discovery.py` lines
40-47): walk the dict in insertion order, find the first record whose name set
contains `name`, remove `name` from that set in place, and pop the entry when
the set became empty.  Returns the updated dict together with the matched
entry's key, the record as the callback sees it (name already removed, because
the tuple's set is mutated in place), and the `service_removed` flag; the
second component is `none` when no record contains `name`. -/
def removeScan (l : List (UUID × CastRecord)) (name : Name) :
    List (UUID × CastRecord) × Option (UUID × CastRecord × Bool) :=
  match l with
  | [] => ([], none)
  | (u, r) :: rest =>
    if name ∈ r.names then
      let r' : CastRecord := { r with names := r.names.erase name }
      if r'.names = ∅ then (rest, some (u, r', true))
      else ((u, r') :: rest, some (u, r', false))
    else
      let res := removeScan rest name
      ((u, r) :: res.1, res.2)

/-- `CastListener.remove_service` (`discovery.py` lines 34-56), returning the
new listener state and the callback invocations it makes.  An unknown name is
logged and ignored; otherwise `remove_callback` runs exactly when the entry
was popped and `update_callback` exactly when it was not (each only if
supplied). -/
def remove_service (st : CastListener) (name : Name) :
    CastListener × List Notification :=
  match removeScan st.services name with
  | (_, none) => (st, [])
  | (l', some (u, r', removedFlag)) =>
    ({ st with services := l' },
      if removedFlag then
        (if st.remove_callback then [Notification.removed u name r'] else [])
      else
        (if st.update_callback then [Notification.updated u name] else []))

/-- Outcome of one `zconf.get_service_info(typ, name)` call: a resolved info,
a `None` result, or a raised `IOError`. -/
inductive ResolveOutcome where
  | ok (info : ServiceInfo)
  | noInfo
  | ioError

/-- The retry loop of `_add_update_service` (`discovery.py` lines 70-79):
`while service is None and tries < 4`, one `zconf.get_service_info` call per
iteration; a raised `IOError` breaks out of the loop immediately, a `None`
result increments `tries` and loops again.  `zconf i` is the outcome of the
`i`-th call; the result is the resolved info (if any) paired with the number
of calls made.  `fuel` bounds the recursion: the body runs at most `4 - tries`
times, so calling with `fuel = 4` from `tries = 0` is exact. -/
def resolveLoop (zconf : Nat → ResolveOutcome) (tries attempts fuel : Nat) :
    Option ServiceInfo × Nat :=
  match fuel with
  | 0 => (none, attempts)
  | fuel' + 1 =>
    if tries < 4 then
      match zconf attempts with
      | ResolveOutcome.ioError => (none, attempts + 1)
      | ResolveOutcome.ok info => (some info, attempts + 1)
      | ResolveOutcome.noInfo => resolveLoop zconf (tries + 1) (attempts + 1) fuel'
    else (none, attempts)

/-- `get_value` (`discovery.py` lines 85-91): look a key up in the resolved
service's property bag.  Byte decoding is collapsed: property values are
modelled as already-decoded text, which the source's decode-if-necessary step
produces in every case. -/
def get_value (info : ServiceInfo) (key : String) : Option String :=
  lookupA info.properties key

/-- Which optional callback `_add_update_service` was handed: `add_service`
passes `self.add_callback`, `update_service` passes `self.update_callback`. -/
inductive CallbackKind where
  | add
  | update
deriving DecidableEq

/-- The callback invocation recorded for a given kind. -/
def mkNotif (kind : CallbackKind) (uuid : UUID) (name : Name) : Notification :=
  match kind with
  | CallbackKind.add => Notification.added uuid name
  | CallbackKind.update => Notification.updated uuid name

/-- The tail of `_add_update_service` after a successful resolution
(`discovery.py` lines 85-119): pick the host (first parsed address, falling
back to the server name), read the `md`/`id`/`fn` properties, drop the event
when the identity property is missing or empty (`if not uuid`), otherwise
merge the announcement name into the identity's record — `setdefault` with
default tuple `({name}, uuid, model_name, friendly_name)`, in-place
`names.add(name)`, then a wholesale six-tuple rewrite — and invoke the
supplied callback if present. -/
def handle_resolved (st : CastListener) (name : Name) (info : ServiceInfo)
    (kind : CallbackKind) : CastListener × List Notification :=
  let host := match info.addresses with
    | a :: _ => a
    | [] => info.server
  let model_name := get_value info "md"
  let friendly_name := get_value info "fn"
  match get_value info "id" with
  | none => (st, [])
  | some s =>
    if s = "" then (st, [])
    else
      let uuid := pyUUID s
      -- only the name set (slot 0) and the uuid (slot 1) of the `setdefault`
      -- default four-tuple survive into the stored six-tuple
      let baseNames := match lookupA st.services uuid with
        | some r => r.names
        | none => ({name} : Finset Name)
      let newRec : CastRecord :=
        ⟨insert name baseNames, uuid, model_name, friendly_name, host, info.port⟩
      let st' := { st with services := storeAssoc st.services uuid newRec }
      let cb := match kind with
        | CallbackKind.add => st.add_callback
        | CallbackKind.update => st.update_callback
      (st', if cb then [mkNotif kind uuid name] else [])

/-- `CastListener._add_update_service` (`discovery.py` lines 68-119): run the
resolution retry loop, drop the event when no info was obtained, otherwise
process the resolved info.  The last component counts the
`zconf.get_service_info` calls that were made. -/
def _add_update_service (st : CastListener) (zconf : Nat → ResolveOutcome)
    (name : Name) (kind : CallbackKind) :
    CastListener × List Notification × Nat :=
  let res := resolveLoop zconf 0 0 4
  match res.1 with
  | none => (st, [], res.2)
  | some info =>
    let hr := handle_resolved st name info kind
    (hr.1, hr.2, res.2)

/-- `CastListener.add_service` (`discovery.py` lines 63-66). -/
def add_service (st : CastListener) (zconf : Nat → ResolveOutcome) (name : Name) :
    CastListener × List Notification × Nat :=
  _add_update_service st zconf name CallbackKind.add

/-- `CastListener.update_service` (`discovery.py` lines 58-61). -/
def update_service (st : CastListener) (zconf : Nat → ResolveOutcome) (name : Name) :
    CastListener × List Notification × Nat :=
  _add_update_service st zconf name CallbackKind.update

/-- `CastListener.__init__`: empty registry, given callback presence flags
(in constructor order: add, remove, update). -/
def initListener (a r u : Bool) : CastListener := ⟨[], a, r, u⟩

/-- One raw zeroconf event as dispatched by the service browser to the
listener's three methods; add/update events carry the oracle answering the
`get_service_info` calls made while handling that event. -/
inductive RegEvent where
  | addS (zconf : Nat → ResolveOutcome) (name : Name)
  | updateS (zconf : Nat → ResolveOutcome) (name : Name)
  | removeS (name : Name)

/-- Registry state transition for one event. -/
def stepEvent (st : CastListener) : RegEvent → CastListener
  | RegEvent.addS z n => (add_service st z n).1
  | RegEvent.updateS z n => (update_service st z n).1
  | RegEvent.removeS n => (remove_service st n).1

/-- Registry state after a sequence of events. -/
def runEvents (st : CastListener) (es : List RegEvent) : CastListener :=
  es.foldl stepEvent st

-- Concrete data used by counterexamples and witnesses.

/-- A resolvable announcement for identity `"u1"`, friendly name
`"Living Room"`. -/
def info1 : ServiceInfo :=
  ⟨[("id", "u1"), ("md", "Chromecast"), ("fn", "Living Room")],
    ["10.0.0.1"], "host.local.", 8009⟩

/-- An oracle whose every `get_service_info` call resolves to `info1`. -/
def zOk : Nat → ResolveOutcome := fun _ => ResolveOutcome.ok info1

/-- An oracle whose every `get_service_info` call raises `IOError`. -/
def zErr : Nat → ResolveOutcome := fun _ => ResolveOutcome.ioError

/-- An oracle whose every `get_service_info` call returns `None`. -/
def zNone : Nat → ResolveOutcome := fun _ => ResolveOutcome.noInfo

/-! ## Association-list lemmas -/

theorem lookupA_mem {α β : Type} [DecidableEq α] {l : List (α × β)} {a : α} {b : β}
    (h : lookupA l a = some b) : (a, b) ∈ l := by
  induction l with
  | nil => simp [lookupA] at h
  | cons p rest ih =>
    by_cases hp : p.1 = a
    · rw [lookupA, if_pos hp] at h
      injection h with hb
      subst hb
      subst hp
      simp
    · rw [lookupA, if_neg hp] at h
      exact List.mem_cons_of_mem _ (ih h)

theorem mem_storeAssoc {α β : Type} [DecidableEq α] {l : List (α × β)} {a : α}
    {b : β} {p : α × β} (h : p ∈ storeAssoc l a b) : p = (a, b) ∨ p ∈ l := by
  induction l with
  | nil =>
    simp [storeAssoc] at h
    exact Or.inl h
  | cons q rest ih =>
    by_cases hq : q.1 = a
    · rw [storeAssoc, if_pos hq] at h
      rcases List.mem_cons.mp h with h' | h'
      · exact Or.inl h'
      · exact Or.inr (List.mem_cons_of_mem _ h')
    · rw [storeAssoc, if_neg hq] at h
      rcases List.mem_cons.mp h with h' | h'
      · subst h'
        exact Or.inr (List.mem_cons_self _ _)
      · rcases ih h' with h'' | h''
        · exact Or.inl h''
        · exact Or.inr (List.mem_cons_of_mem _ h'')

/-! ## Names never empty: invariant preservation -/

/-- Registry invariant: every stored record has a non-empty name set. -/
def NamesNonempty (st : CastListener) : Prop :=
  ∀ p ∈ st.services, p.2.names.Nonempty

theorem removeScan_nonempty {l : List (UUID × CastRecord)} {n : Name}
    (h : ∀ p ∈ l, p.2.names.Nonempty) :
    ∀ p ∈ (removeScan l n).1, p.2.names.Nonempty := by
  induction l with
  | nil =>
    intro p hp
    simp [removeScan] at hp
  | cons q rest ih =>
    obtain ⟨u, r⟩ := q
    intro p hp
    rw [removeScan] at hp
    by_cases hn : n ∈ r.names
    · rw [if_pos hn] at hp
      by_cases he : r.names.erase n = ∅
      · simp only [he, if_pos rfl] at hp
        exact h p (List.mem_cons_of_mem _ hp)
      · simp only [if_neg he] at hp
        rcases List.mem_cons.mp hp with h' | h'
        · subst h'
          exact Finset.nonempty_iff_ne_empty.mpr he
        · exact h p (List.mem_cons_of_mem _ h')
    · rw [if_neg hn] at hp
      rcases List.mem_cons.mp hp with h' | h'
      · subst h'
        exact h _ (List.mem_cons_self _ _)
      · exact ih (fun p hp => h p (List.mem_cons_of_mem _ hp)) p h'

theorem remove_service_nonempty {st : CastListener} {n : Name}
    (h : NamesNonempty st) : NamesNonempty (remove_service st n).1 := by
  rw [remove_service]
  rcases hscan : removeScan st.services n with ⟨l', out⟩
  have hl' : ∀ p ∈ l', p.2.names.Nonempty := by
    have := removeScan_nonempty (l := st.services) (n := n) h
    rw [hscan] at this
    exact this
  cases out with
  | none => exact h
  | some o =>
    obtain ⟨u, r', flag⟩ := o
    exact hl'

theorem handle_resolved_nonempty {st : CastListener} {n : Name}
    {info : ServiceInfo} {k : CallbackKind} (h : NamesNonempty st) :
    NamesNonempty (handle_resolved st n info k).1 := by
  unfold handle_resolved
  cases hid : get_value info "id" with
  | none =>
    simp only [hid]
    exact h
  | some s =>
    by_cases hs : s = ""
    · simp only [hid, if_pos hs]
      exact h
    · simp only [hid, if_neg hs]
      intro p hp
      rcases mem_storeAssoc hp with h' | h'
      · subst h'
        exact Finset.insert_nonempty _ _
      · exact h p h'

theorem _add_update_service_nonempty {st : CastListener}
    {z : Nat → ResolveOutcome} {n : Name} {k : CallbackKind}
    (h : NamesNonempty st) : NamesNonempty (_add_update_service st z n k).1 := by
  rw [_add_update_service]
  cases (resolveLoop z 0 0 4).1 with
  | none => exact h
  | some info => exact handle_resolved_nonempty h

theorem stepEvent_nonempty {st : CastListener} {e : RegEvent}
    (h : NamesNonempty st) : NamesNonempty (stepEvent st e) := by
  cases e with
  | addS z n => exact _add_update_service_nonempty h
  | updateS z n => exact _add_update_service_nonempty h
  | removeS n => exact remove_service_nonempty h

theorem runEvents_nonempty {st : CastListener} (es : List RegEvent)
    (h : NamesNonempty st) : NamesNonempty (runEvents st es) := by
  induction es generalizing st with
  | nil => exact h
  | cons e es ih => exact ih (stepEvent_nonempty h)

/-- C1.  Registry invariant: after any sequence of
add_service/update_service/remove_service events starting from a freshly
constructed listener, an identity is a key of `services` iff the record stored
under it has a non-empty name set.  (Since every stored record satisfies the
right-hand side, an entry is never left with an empty name set: removing the
last name pops the entry, see `remove_service`.) -/
theorem C1_registry_invariant (a r u' : Bool) (es : List RegEvent) (u : UUID) :
    (∃ rcd, lookupA (runEvents (initListener a r u') es).services u = some rcd) ↔
    (∃ rcd, lookupA (runEvents (initListener a r u') es).services u = some rcd ∧
      rcd.names ≠ ∅) := by
  constructor
  · rintro ⟨rcd, hrcd⟩
    refine ⟨rcd, hrcd, ?_⟩
    have hmem := lookupA_mem hrcd
    have hinv : NamesNonempty (runEvents (initListener a r u') es) :=
      runEvents_nonempty es (by intro p hp; simp [initListener] at hp)
    exact Finset.nonempty_iff_ne_empty.mp (hinv _ hmem)
  · rintro ⟨rcd, hrcd, _⟩
    exact ⟨rcd, hrcd⟩

/-- Witness for C1 at a concrete event sequence: after adding name `"n1"`
(resolving to identity `"u1"`) the identity `"u1"` is a key and its record's
name set is non-empty. -/
theorem C1_registry_invariant_witness :
    ∃ rcd, lookupA (runEvents (initListener true true true)
      [RegEvent.addS zOk "n1"]).services "u1" = some rcd ∧ rcd.names ≠ ∅ :=
  (C1_registry_invariant true true true [RegEvent.addS zOk "n1"] "u1").mp
    ⟨⟨{"n1"}, "u1", some "Chromecast", some "Living Room", "10.0.0.1", 8009⟩,
      by decide⟩

/-! ## C2: remove_service -/

theorem removeScan_none {l : List (UUID × CastRecord)} {n : Name}
    (h : ∀ q ∈ l, n ∉ q.2.names) : removeScan l n = (l, none) := by
  induction l with
  | nil => rfl
  | cons p rest ih =>
    obtain ⟨u, r⟩ := p
    have hn : n ∉ r.names := h (u, r) (List.mem_cons_self _ _)
    rw [removeScan, if_neg hn, ih (fun q hq => h q (List.mem_cons_of_mem _ hq))]

theorem removeScan_found {pre rest : List (UUID × CastRecord)} {u : UUID}
    {r : CastRecord} {n : Name} (hpre : ∀ q ∈ pre, n ∉ q.2.names)
    (hr : n ∈ r.names) :
    removeScan (pre ++ (u, r) :: rest) n =
      if r.names.erase n = ∅ then
        (pre ++ rest, some (u, { r with names := r.names.erase n }, true))
      else
        (pre ++ (u, { r with names := r.names.erase n }) :: rest,
          some (u, { r with names := r.names.erase n }, false)) := by
  induction pre with
  | nil =>
    rw [List.nil_append, removeScan, if_pos hr]
    by_cases he : r.names.erase n = ∅
    · simp only [if_pos he, List.nil_append]
    · simp only [if_neg he, List.nil_append]
  | cons p pre ih =>
    obtain ⟨u', r'⟩ := p
    have hn : n ∉ r'.names := hpre (u', r') (List.mem_cons_self _ _)
    rw [List.cons_append, removeScan, if_neg hn,
      ih (fun q hq => hpre q (List.mem_cons_of_mem _ hq))]
    by_cases he : r.names.erase n = ∅
    · simp only [if_pos he, List.cons_append]
    · simp only [if_neg he, List.cons_append]

/-- C2.  `remove_service` with a name held by some record removes the name
from the first such record (in dict insertion order); if the name set thereby
becomes empty the entry is popped and the remove-callback is invoked exactly
once with the record as last seen (the name set already emptied, since the
tuple's set is mutated in place), otherwise the update-callback — and not the
remove-callback — is invoked; with a name contained in no record, the state is
unchanged and no callback is invoked. -/
theorem C2_remove_service_spec (st : CastListener) (n : Name) :
    ((∀ q ∈ st.services, n ∉ q.2.names) → remove_service st n = (st, [])) ∧
    (∀ pre u r rest, st.services = pre ++ (u, r) :: rest →
      (∀ q ∈ pre, n ∉ q.2.names) → n ∈ r.names →
      st.remove_callback = true → st.update_callback = true →
      ((r.names.erase n = ∅ →
          remove_service st n =
            ({ st with services := pre ++ rest },
              [Notification.removed u n { r with names := r.names.erase n }])) ∧
        (r.names.erase n ≠ ∅ →
          remove_service st n =
            ({ st with
                services := pre ++ (u, { r with names := r.names.erase n }) :: rest },
              [Notification.updated u n])))) := by
  constructor
  · intro h
    rw [remove_service, removeScan_none h]
  · intro pre u r rest hsv hpre hr hrc huc
    constructor
    · intro he
      rw [remove_service, hsv, removeScan_found hpre hr, if_pos he]
      simp [hrc]
    · intro he
      rw [remove_service, hsv, removeScan_found hpre hr, if_neg he]
      simp [huc]

/-- Witness for C2: in a registry holding one record for identity `"u1"` with
names `{"n1", "n2"}`, removing `"n1"` keeps the entry and fires only the
update-callback, and subsequently removing `"n2"` pops the entry and fires the
remove-callback once with the emptied record snapshot. -/
theorem C2_remove_service_spec_witness :
    remove_service ⟨[("u1", ⟨{"n1", "n2"}, "u1", none, none, "h", 1⟩)],
        true, true, true⟩ "n1" =
      (⟨[("u1", ⟨{"n2"}, "u1", none, none, "h", 1⟩)], true, true, true⟩,
        [Notification.updated "u1" "n1"]) ∧
    remove_service ⟨[("u1", ⟨{"n2"}, "u1", none, none, "h", 1⟩)],
        true, true, true⟩ "n2" =
      (⟨[], true, true, true⟩,
        [Notification.removed "u1" "n2" ⟨∅, "u1", none, none, "h", 1⟩]) := by
  constructor
  · have h := ((C2_remove_service_spec
      ⟨[("u1", ⟨{"n1", "n2"}, "u1", none, none, "h", 1⟩)], true, true, true⟩
      "n1").2 [] "u1" ⟨{"n1", "n2"}, "u1", none, none, "h", 1⟩ []
      rfl (by intro q hq; simp at hq) (by decide) rfl rfl).2 (by decide)
    rw [h]
    have hn : ({"n1", "n2"} : Finset Name).erase "n1" = {"n2"} := by decide
    simp [hn]
  · have h := ((C2_remove_service_spec
      ⟨[("u1", ⟨{"n2"}, "u1", none, none, "h", 1⟩)], true, true, true⟩
      "n2").2 [] "u1" ⟨{"n2"}, "u1", none, none, "h", 1⟩ []
      rfl (by intro q hq; simp at hq) (by decide) rfl rfl).1 (by decide)
    rw [h]
    have hn : ({"n2"} : Finset Name).erase "n2" = ∅ := by decide
    simp [hn]

/-! ## C3: single-identity interleavings -/

/-- One event of an interleaving referencing a single device identity (C3):
a successfully resolved add/update announcement carrying its resolved info, or
a removal. -/
inductive SoloEvent where
  | addName (kind : CallbackKind) (name : Name) (info : ServiceInfo)
  | removeName (name : Name)
deriving DecidableEq

/-- Registry transition for one such event (resolved add/update events go
through the post-resolution tail of `_add_update_service`). -/
def stepSolo (st : CastListener) : SoloEvent → CastListener
  | SoloEvent.addName k n info => (handle_resolved st n info k).1
  | SoloEvent.removeName n => (remove_service st n).1

/-- Registry after an interleaving, starting from a fresh listener. -/
def runSolo (es : List SoloEvent) : CastListener :=
  es.foldl stepSolo (initListener true true true)

/-- Whether an event references identity `s`: removals always (they carry only
a name), add/update events when their resolved info's identity property is
`s`. -/
def soloFor (s : String) : SoloEvent → Bool
  | SoloEvent.addName _ _ info => get_value info "id" = some s
  | SoloEvent.removeName _ => true

/-- Written from the spec's words for C3: the set-algebraic union of all
added names of the interleaving. -/
def addedNames : List SoloEvent → Finset Name
  | [] => ∅
  | SoloEvent.addName _ n _ :: es => insert n (addedNames es)
  | SoloEvent.removeName _ :: es => addedNames es

/-- Written from the spec's words for C3: the set of all removed names of the
interleaving. -/
def removedNames : List SoloEvent → Finset Name
  | [] => ∅
  | SoloEvent.addName _ _ _ :: es => removedNames es
  | SoloEvent.removeName n :: es => insert n (removedNames es)

/-- Left-to-right name-set fold of the interleaving: insert on add/update,
erase on remove.  The result is the set of names whose most recent event is an
add/update. -/
def applyNameEvent (acc : Finset Name) : SoloEvent → Finset Name
  | SoloEvent.addName _ n _ => insert n acc
  | SoloEvent.removeName n => acc.erase n

/-- The set of names whose most recent event in the interleaving is an
add/update. -/
def finalNames (es : List SoloEvent) : Finset Name :=
  es.foldl applyNameEvent ∅

/-- The interleaving add `"n1"`, remove `"n1"`, add `"n1"` again — a removed
name that is subsequently re-added. -/
def c3events : List SoloEvent :=
  [SoloEvent.addName CallbackKind.add "n1" info1,
   SoloEvent.removeName "n1",
   SoloEvent.addName CallbackKind.add "n1" info1]

/-- C3 counterexample: for the interleaving add `"n1"` / remove `"n1"` /
add `"n1"` (all referencing identity `"u1"`), the union of added names minus
removed names is empty — so the claim predicts the record is absent — but the
code leaves a record for `"u1"` with name set `{"n1"}`. -/
theorem C3_counterexample :
    addedNames c3events \ removedNames c3events = ∅ ∧
    (runSolo c3events).services =
      [("u1", ⟨{"n1"}, "u1", some "Chromecast", some "Living Room",
        "10.0.0.1", 8009⟩)] := by decide

/-- The single-identity run invariant: the registry is empty iff the folded
name set is, and otherwise holds exactly one record, for identity `s`, whose
name set is the folded set. -/
def SoloInv (s : String) (st : CastListener) (acc : Finset Name) : Prop :=
  (st.services = [] ∧ acc = ∅) ∨
  (∃ rcd : CastRecord, st.services = [(pyUUID s, rcd)] ∧ rcd.names = acc ∧ acc ≠ ∅)

@[simp] theorem lookupA_nil {α β : Type} [DecidableEq α] (a : α) :
    lookupA ([] : List (α × β)) a = none := rfl

@[simp] theorem lookupA_cons_self {α β : Type} [DecidableEq α] (a : α) (b : β)
    (l : List (α × β)) : lookupA ((a, b) :: l) a = some b := by
  simp [lookupA]

@[simp] theorem storeAssoc_nil {α β : Type} [DecidableEq α] (a : α) (b : β) :
    storeAssoc ([] : List (α × β)) a b = [(a, b)] := rfl

@[simp] theorem storeAssoc_cons_self {α β : Type} [DecidableEq α] (a : α)
    (b0 b : β) (l : List (α × β)) :
    storeAssoc ((a, b0) :: l) a b = (a, b) :: l := by
  simp [storeAssoc]

theorem stepSolo_inv {s : String} {st : CastListener} {acc : Finset Name}
    {e : SoloEvent} (hs : s ≠ "") (he : soloFor s e = true)
    (hinv : SoloInv s st acc) : SoloInv s (stepSolo st e) (applyNameEvent acc e) := by
  cases e with
  | addName k n info =>
    have hid : get_value info "id" = some s := by
      simpa [soloFor] using he
    rw [stepSolo, applyNameEvent]
    unfold handle_resolved
    simp only [hid, if_neg hs]
    rcases hinv with ⟨h1, h2⟩ | ⟨rcd, h1, h2, h3⟩
    · subst h2
      refine Or.inr ⟨⟨insert n {n}, pyUUID s, get_value info "md",
          get_value info "fn",
          (match info.addresses with | a :: _ => a | [] => info.server),
          info.port⟩, ?_, by simp, Finset.insert_ne_empty _ _⟩
      rw [h1]
      rfl
    · subst h2
      refine Or.inr ⟨⟨insert n rcd.names, pyUUID s, get_value info "md",
          get_value info "fn",
          (match info.addresses with | a :: _ => a | [] => info.server),
          info.port⟩, ?_, rfl, Finset.insert_ne_empty _ _⟩
      rw [h1]
      simp only [lookupA_cons_self, storeAssoc_cons_self]
  | removeName n =>
    rw [stepSolo, applyNameEvent]
    rcases hinv with ⟨h1, h2⟩ | ⟨rcd, h1, h2, h3⟩
    · subst h2
      have hrs : remove_service st n = (st, []) := by
        rw [remove_service, h1]
        rfl
      rw [hrs]
      exact Or.inl ⟨h1, Finset.erase_empty n⟩
    · subst h2
      by_cases hn : n ∈ rcd.names
      · by_cases hee : rcd.names.erase n = ∅
        · have hrs : remove_service st n =
              ({ st with services := [] },
                if st.remove_callback then
                  [Notification.removed (pyUUID s) n
                    { rcd with names := rcd.names.erase n }] else []) := by
            rw [remove_service, h1, removeScan, if_pos hn, if_pos hee]
            rfl
          rw [hrs]
          exact Or.inl ⟨rfl, hee⟩
        · have hrs : remove_service st n =
              ({ st with services :=
                  [(pyUUID s, { rcd with names := rcd.names.erase n })] },
                if st.update_callback then
                  [Notification.updated (pyUUID s) n] else []) := by
            rw [remove_service, h1, removeScan, if_pos hn, if_neg hee]
            rfl
          rw [hrs]
          exact Or.inr ⟨_, rfl, rfl, hee⟩
      · have hrs : remove_service st n = (st, []) := by
          rw [remove_service, h1, removeScan, if_neg hn]
          rfl
        rw [hrs]
        rw [Finset.erase_eq_of_not_mem hn]
        exact Or.inr ⟨rcd, h1, rfl, h3⟩

theorem foldSolo_inv {s : String} (hs : s ≠ "") (es : List SoloEvent)
    {st : CastListener} {acc : Finset Name}
    (hes : ∀ e ∈ es, soloFor s e = true) (hinv : SoloInv s st acc) :
    SoloInv s (es.foldl stepSolo st) (es.foldl applyNameEvent acc) := by
  induction es generalizing st acc with
  | nil => exact hinv
  | cons e es ih =>
    exact ih (fun e' he' => hes e' (List.mem_cons_of_mem _ he'))
      (stepSolo_inv hs (hes e (List.mem_cons_self _ _)) hinv)

/-- C3 (amended).  For every interleaving of successfully resolved add/update
events and remove events all referencing the same identity `s`, the final
record's name set equals the set of names whose most recent event is an
add/update (insert-on-add / erase-on-remove fold), and the record is absent
exactly when that set is empty.  (This coincides with "union of added names
minus removed names" whenever no name is re-added after being removed, but not
in general — see the counterexample.) -/
theorem C3_amended_final_names (s : String) (es : List SoloEvent)
    (hs : s ≠ "") (hes : ∀ e ∈ es, soloFor s e = true) :
    ((runSolo es).services = [] ∧ finalNames es = ∅) ∨
    (∃ rcd : CastRecord, (runSolo es).services = [(pyUUID s, rcd)] ∧
      rcd.names = finalNames es ∧ finalNames es ≠ ∅) :=
  foldSolo_inv hs es hes (Or.inl ⟨rfl, rfl⟩)

/-- Witness for C3 (amended) at the concrete interleaving `c3events`. -/
theorem C3_amended_final_names_witness :
    ((runSolo c3events).services = [] ∧ finalNames c3events = ∅) ∨
    (∃ rcd : CastRecord, (runSolo c3events).services = [(pyUUID "u1", rcd)] ∧
      rcd.names = finalNames c3events ∧ finalNames c3events ≠ ∅) :=
  C3_amended_final_names "u1" c3events (by decide) (by decide)

/-! ## C4: which listener fires -/

theorem handle_resolved_notifs (st : CastListener) (n : Name)
    (info : ServiceInfo) (k : CallbackKind) :
    (handle_resolved st n info k).2 = [] ∨
    ∃ u, (handle_resolved st n info k).2 = [mkNotif k u n] := by
  unfold handle_resolved
  cases hid : get_value info "id" with
  | none => exact Or.inl rfl
  | some s =>
    by_cases hs : s = ""
    · left
      simp [hs]
    · simp only [if_neg hs]
      cases k with
      | add =>
        cases hca : st.add_callback with
        | false =>
          left
          simp [hca]
        | true =>
          right
          exact ⟨pyUUID s, by simp [hca]⟩
      | update =>
        cases hcu : st.update_callback with
        | false =>
          left
          simp [hcu]
        | true =>
          right
          exact ⟨pyUUID s, by simp [hcu]⟩

/-- C4 (amended).  Which listener fires is determined by the incoming event
type, not by whether the record is first created: `add_service` only ever
invokes the add-callback and `update_service` only ever the update-callback
(each when supplied), whether or not the resolved identity is already a key of
the registry. -/
theorem C4_amended_callback_by_event_type (st : CastListener)
    (z : Nat → ResolveOutcome) (n : Name) :
    ((add_service st z n).2.1 = [] ∨
      ∃ u, (add_service st z n).2.1 = [Notification.added u n]) ∧
    ((update_service st z n).2.1 = [] ∨
      ∃ u, (update_service st z n).2.1 = [Notification.updated u n]) := by
  rcases hres : resolveLoop z 0 0 4 with ⟨sv, att⟩
  constructor
  · rw [add_service, _add_update_service, hres]
    cases sv with
    | none => exact Or.inl rfl
    | some info => exact handle_resolved_notifs st n info CallbackKind.add
  · rw [update_service, _add_update_service, hres]
    cases sv with
    | none => exact Or.inl rfl
    | some info => exact handle_resolved_notifs st n info CallbackKind.update

/-- C4 counterexample: with all three callbacks supplied and an empty
registry, an update-type event resolving to the brand-new identity `"u1"`
invokes the update-callback — not the add-callback — even though the record is
first created by this very event. -/
theorem C4_counterexample :
    lookupA (initListener true true true).services "u1" = none ∧
    (update_service (initListener true true true) zOk "n1").2.1 =
      [Notification.updated "u1" "n1"] := by decide

/-! ## C5: the resolution retry loop -/

/-- C5 counterexample: an announcement whose resolution raises `IOError` on
every attempt is attempted exactly once — not 4 times — and then dropped
(registry unchanged, no callback invoked). -/
theorem C5_counterexample :
    (_add_update_service (initListener true true true) zErr "n1"
      CallbackKind.add).2.2 = 1 ∧
    (_add_update_service (initListener true true true) zErr "n1"
      CallbackKind.add).2.2 ≠ 4 ∧
    (_add_update_service (initListener true true true) zErr "n1"
      CallbackKind.add).1 = initListener true true true ∧
    (_add_update_service (initListener true true true) zErr "n1"
      CallbackKind.add).2.1 = [] := by decide

/-- C5 (amended).  A raised `IOError` aborts the retry loop: when the first
`get_service_info` call raises, resolution is attempted exactly once and the
event is dropped (no record created or modified, no callback invoked).  It is
a `None` result that is retried: when every call returns `None`, exactly 4
attempts are made and the event is then likewise dropped. -/
theorem C5_amended_retry_behaviour (st : CastListener)
    (z : Nat → ResolveOutcome) (n : Name) (k : CallbackKind) :
    (z 0 = ResolveOutcome.ioError →
      _add_update_service st z n k = (st, [], 1)) ∧
    ((∀ i, z i = ResolveOutcome.noInfo) →
      _add_update_service st z n k = (st, [], 4)) := by
  constructor
  · intro h0
    have hres : resolveLoop z 0 0 4 = (none, 1) := by
      rw [resolveLoop, if_pos (by norm_num : (0 : Nat) < 4), h0]
    rw [_add_update_service, hres]
  · intro hall
    have hres : resolveLoop z 0 0 4 = (none, 4) := by
      simp [resolveLoop, hall]
    rw [_add_update_service, hres]

/-- Witness for C5 (amended) at the concrete oracles `zErr` (always raises)
and `zNone` (always returns `None`). -/
theorem C5_amended_retry_behaviour_witness :
    _add_update_service (initListener true true true) zErr "n1"
      CallbackKind.add = (initListener true true true, [], 1) ∧
    _add_update_service (initListener true true true) zNone "n1"
      CallbackKind.add = (initListener true true true, [], 4) :=
  ⟨(C5_amended_retry_behaviour (initListener true true true) zErr "n1"
      CallbackKind.add).1 rfl,
   (C5_amended_retry_behaviour (initListener true true true) zNone "n1"
      CallbackKind.add).2 (fun _ => rfl)⟩

/-! ## C7: get_chromecasts usage error -/

/-- Observable steps of `get_chromecasts` before it returns
(`__init__.py` lines 175-249): the blocking discovery path, or — in
callback mode — constructing the `CastListener`, creating the zeroconf
instance and starting the service browser. -/
inductive GCEffect where
  | discoverBlocking
  | createListener
  | createZeroconf
  | startBrowser
deriving DecidableEq

/-- Control-flow skeleton of `get_chromecasts` (`__init__.py` lines 175-249):
with `blocking=True` it runs the blocking discovery path; otherwise it first
checks `callable(callback)` and raises
`ValueError("Nonblocking discovery requires a callback function.")` before
anything else; only past that check does it build the listener, the zeroconf
instance and the browser.  `callbackCallable` is the value of
`callable(callback)`; the result is the ordered list of effects performed, or
the raised error. -/
def get_chromecasts (blocking callbackCallable : Bool) :
    Except String (List GCEffect) :=
  if blocking then Except.ok [GCEffect.discoverBlocking]
  else if !callbackCallable then
    Except.error "Nonblocking discovery requires a callback function."
  else Except.ok [GCEffect.createListener, GCEffect.createZeroconf,
    GCEffect.startBrowser]

/-- C7.  Calling `get_chromecasts` with `blocking=False` and a non-callable
callback raises `ValueError` immediately and synchronously: the call returns
the error having performed no effect at all — in particular no listener is
created and no browser is started. -/
theorem C7_nonblocking_requires_callback :
    get_chromecasts false false =
      Except.error "Nonblocking discovery requires a callback function." ∧
    ∀ blocking callbackCallable effects,
      get_chromecasts blocking callbackCallable = Except.ok effects →
      (blocking = true ∨ callbackCallable = true) := by
  constructor
  · rfl
  · intro blocking callbackCallable effects h
    cases blocking with
    | true => exact Or.inl rfl
    | false =>
      cases callbackCallable with
      | true => exact Or.inr rfl
      | false => simp [get_chromecasts] at h

/-- Witness for C7: the second conjunct applied at the fully-callable case. -/
theorem C7_nonblocking_requires_callback_witness :
    true = true ∨ true = true :=
  C7_nonblocking_requires_callback.2 true true [GCEffect.discoverBlocking] rfl

/-! ## C8: stop_discovery -/

/-- A Python exception class, as far as `stop_discovery`'s handler cares:
`RuntimeError` or anything else. -/
inductive PyExn where
  | runtimeError
  | valueError
  | keyError
deriving DecidableEq

/-- Observable resource actions of `stop_discovery`. -/
inductive StopEffect where
  | cancelWatcher
  | closeClient
deriving DecidableEq

/-- `stop_discovery` (`discovery.py` lines 145-152): `browser.cancel()` inside
`try/except RuntimeError: pass`, then `browser.zc.close()`.  `cancelRaises` is
the exception raised by `browser.cancel()` (if any); the result is the list of
actions performed, in order, and the exception propagated to the caller (if
any). -/
def stop_discovery (cancelRaises : Option PyExn) :
    List StopEffect × Option PyExn :=
  match cancelRaises with
  | none => ([StopEffect.cancelWatcher, StopEffect.closeClient], none)
  | some e =>
    if e = PyExn.runtimeError then
      ([StopEffect.cancelWatcher, StopEffect.closeClient], none)
    else
      ([StopEffect.cancelWatcher], some e)

/-- C8 counterexample: when the watcher cancellation raises an exception that
is not a `RuntimeError` (here `ValueError`), the exception is not suppressed —
it propagates to the caller — and the shared zeroconf client instance is not
closed. -/
theorem C8_counterexample :
    StopEffect.closeClient ∉ (stop_discovery (some PyExn.valueError)).1 ∧
    (stop_discovery (some PyExn.valueError)).2 = some PyExn.valueError := by
  decide

/-- C8 (amended).  `stop_discovery` suppresses exactly `RuntimeError` from the
watcher cancellation: when cancellation succeeds or raises `RuntimeError`, the
failure is swallowed and the client instance is closed; an exception of any
other type propagates, skipping the close. -/
theorem C8_amended_stop_discovery (cancelRaises : Option PyExn) :
    ((cancelRaises = none ∨ cancelRaises = some PyExn.runtimeError) →
      stop_discovery cancelRaises =
        ([StopEffect.cancelWatcher, StopEffect.closeClient], none)) ∧
    (∀ e, cancelRaises = some e → e ≠ PyExn.runtimeError →
      stop_discovery cancelRaises = ([StopEffect.cancelWatcher], some e)) := by
  constructor
  · rintro (rfl | rfl)
    · rfl
    · rfl
  · rintro e rfl he
    rw [stop_discovery, if_neg he]

/-- Witness for C8 (amended) at `RuntimeError` and `ValueError`. -/
theorem C8_amended_stop_discovery_witness :
    stop_discovery (some PyExn.runtimeError) =
      ([StopEffect.cancelWatcher, StopEffect.closeClient], none) ∧
    stop_discovery (some PyExn.valueError) =
      ([StopEffect.cancelWatcher], some PyExn.valueError) :=
  ⟨(C8_amended_stop_discovery (some PyExn.runtimeError)).1 (Or.inr rfl),
   (C8_amended_stop_discovery (some PyExn.valueError)).2 PyExn.valueError rfl
     (by decide)⟩

/-! ## C6: the set-bound discovery session (discover_listed_chromecasts) -/

/-- Python truthiness of a value that is either `None` or a list. -/
def truthyList {α : Type} : Option (List α) → Bool
  | none => false
  | some l => !l.isEmpty

/-- State of one `discover_listed_chromecasts` session (`discovery.py` lines
183-225): the listener's registry, the accumulated `cc_list` dict, the
caller-supplied `uuids` and `friendly_names` collections (possibly `None`),
and the `discover_complete` event flag. -/
structure DLState where
  services : List (UUID × CastRecord)
  cc_list : List (UUID × CastRecord)
  uuids : Option (List UUID)
  friendly_names : Option (List String)
  done : Bool
deriving DecidableEq

/-- The session callback of `discover_listed_chromecasts` (`discovery.py`
lines 205-215), invoked with a discovered identity: read the identity's
record, record it into `cc_list` and drain the matched key when the identity
is in the remaining `uuids` or its friendly name is in the remaining
`friendly_names` (one event may do both), then signal `discover_complete`
exactly when both remaining collections are falsy.  The `none` lookup branch
is unreachable: the listener invokes the callback only after storing the
record. -/
def listedCallback (st : DLState) (u : UUID) : DLState :=
  match lookupA st.services u with
  | none => st
  | some service =>
    let st1 :=
      if truthyList st.uuids = true ∧ u ∈ st.uuids.getD [] then
        { st with cc_list := storeAssoc st.cc_list u service,
                  uuids := some ((st.uuids.getD []).erase u) }
      else st
    let st2 :=
      match service.friendly_name with
      | some f =>
        if truthyList st1.friendly_names = true ∧
            f ∈ st1.friendly_names.getD [] then
          { st1 with cc_list := storeAssoc st1.cc_list u service,
                     friendly_names :=
                       some ((st1.friendly_names.getD []).erase f) }
        else st1
      | none => st1
    if truthyList st2.friendly_names = false ∧ truthyList st2.uuids = false then
      { st2 with done := true }
    else st2

/-- The listener built by `discover_listed_chromecasts`:
`CastListener(callback)` — only `add_callback` is supplied. -/
def dlListener (st : DLState) : CastListener :=
  ⟨st.services, true, false, false⟩

/-- One announcement delivered to a running session's listener. -/
inductive SessEvent where
  | addEv (zconf : Nat → ResolveOutcome) (name : Name)
  | updateEv (zconf : Nat → ResolveOutcome) (name : Name)
  | removeEv (name : Name)

/-- Deliver the listener's callback invocations to the session callback
(the session supplies only the add-callback, so only `added` invocations can
occur). -/
def dlApplyNotifs (st : DLState) (ns : List Notification) : DLState :=
  ns.foldl (fun acc nu => match nu with
    | Notification.added u _ => listedCallback acc u
    | _ => acc) st

/-- One event of a `discover_listed_chromecasts` session: the listener method
runs first (updating the shared registry), then its callback invocations drive
the session callback. -/
def dlStep (st : DLState) : SessEvent → DLState
  | SessEvent.addEv z n =>
    dlApplyNotifs
      { st with services := (add_service (dlListener st) z n).1.services }
      (add_service (dlListener st) z n).2.1
  | SessEvent.updateEv z n =>
    dlApplyNotifs
      { st with services := (update_service (dlListener st) z n).1.services }
      (update_service (dlListener st) z n).2.1
  | SessEvent.removeEv n =>
    dlApplyNotifs
      { st with services := (remove_service (dlListener st) n).1.services }
      (remove_service (dlListener st) n).2

/-- A session over a sequence of announcements. -/
def dlRun (st : DLState) (es : List SessEvent) : DLState :=
  es.foldl dlStep st

/-- A fresh session looking for identity `"u1"` only (no friendly-name
criterion). -/
def dlSt0 : DLState := ⟨[], [], some ["u1"], none, false⟩

/-- C6 counterexample: in a session waiting for identity `"u1"`, an
update-type event that resolves to `"u1"` reaches the registry but does not
invoke the session callback — the device is not recorded, the remaining
identity set is not drained and completion is not signalled — because
`CastListener(callback)` wires the session callback as add-callback only. -/
theorem C6_counterexample :
    (dlStep dlSt0 (SessEvent.updateEv zOk "n1")).uuids = some ["u1"] ∧
    (dlStep dlSt0 (SessEvent.updateEv zOk "n1")).cc_list = [] ∧
    (dlStep dlSt0 (SessEvent.updateEv zOk "n1")).done = false ∧
    lookupA (dlStep dlSt0 (SessEvent.updateEv zOk "n1")).services "u1" ≠
      none := by decide

theorem lookupA_storeAssoc_self {α β : Type} [DecidableEq α]
    (l : List (α × β)) (a : α) (b : β) :
    lookupA (storeAssoc l a b) a = some b := by
  induction l with
  | nil => simp [storeAssoc, lookupA]
  | cons p rest ih =>
    by_cases hp : p.1 = a
    · rw [storeAssoc, if_pos hp]
      simp [lookupA]
    · rw [storeAssoc, if_neg hp, lookupA, if_neg hp]
      exact ih

theorem update_service_no_cb (st : CastListener) (z : Nat → ResolveOutcome)
    (n : Name) (h : st.update_callback = false) :
    (update_service st z n).2.1 = [] := by
  rcases hres : resolveLoop z 0 0 4 with ⟨r?, att⟩
  rw [update_service, _add_update_service, hres]
  cases r? with
  | none => rfl
  | some info =>
    show (handle_resolved st n info CallbackKind.update).2 = []
    unfold handle_resolved
    cases hid : get_value info "id" with
    | none => rfl
    | some s =>
      by_cases hs : s = ""
      · simp [hs]
      · simp [if_neg hs, h]

/-- C6 (amended).  In a `discover_listed_chromecasts` session the session
callback is invoked on each successfully resolved add event only — update
events reach the registry but never the session callback, because
`CastListener(callback)` supplies it as add-callback only.  For the invoked
callback the claimed matching logic holds: an identity in the remaining
identity list is recorded and its key drained, a friendly name in the
remaining name list is recorded and its key drained (one event may drain
both), completion is signalled exactly when both remaining criteria are falsy
(`None` counting as already empty), and a non-matching event changes neither
the result dict nor the remaining criteria. -/
theorem C6_amended_listed_session :
    (∀ st z n,
      (dlStep st (SessEvent.updateEv z n)).cc_list = st.cc_list ∧
      (dlStep st (SessEvent.updateEv z n)).uuids = st.uuids ∧
      (dlStep st (SessEvent.updateEv z n)).friendly_names =
        st.friendly_names ∧
      (dlStep st (SessEvent.updateEv z n)).done = st.done) ∧
    (∀ st n info s, get_value info "id" = some s → s ≠ "" →
      dlStep st (SessEvent.addEv (fun _ => ResolveOutcome.ok info) n) =
        listedCallback
          { st with services :=
              (handle_resolved (dlListener st) n info
                CallbackKind.add).1.services }
          (pyUUID s)) ∧
    (∀ st u sv, lookupA st.services u = some sv →
      truthyList st.uuids = true → u ∈ st.uuids.getD [] →
        lookupA (listedCallback st u).cc_list u = some sv ∧
        (listedCallback st u).uuids = some ((st.uuids.getD []).erase u)) ∧
    (∀ st u sv f, lookupA st.services u = some sv →
      sv.friendly_name = some f →
      truthyList st.friendly_names = true →
      f ∈ st.friendly_names.getD [] →
        lookupA (listedCallback st u).cc_list u = some sv ∧
        (listedCallback st u).friendly_names =
          some ((st.friendly_names.getD []).erase f)) ∧
    (∀ st u sv, lookupA st.services u = some sv →
      ((listedCallback st u).done = true ↔ st.done = true ∨
        (truthyList (listedCallback st u).uuids = false ∧
          truthyList (listedCallback st u).friendly_names = false))) ∧
    (∀ st u sv, lookupA st.services u = some sv →
      ¬(truthyList st.uuids = true ∧ u ∈ st.uuids.getD []) →
      (∀ f, sv.friendly_name = some f →
        ¬(truthyList st.friendly_names = true ∧
          f ∈ st.friendly_names.getD [])) →
        (listedCallback st u).cc_list = st.cc_list ∧
        (listedCallback st u).uuids = st.uuids ∧
        (listedCallback st u).friendly_names = st.friendly_names) := by
  refine ⟨?_, ?_, ?_, ?_, ?_, ?_⟩
  · -- update events do not reach the session callback
    intro st z n
    have h0 : (update_service (dlListener st) z n).2.1 = [] :=
      update_service_no_cb (dlListener st) z n rfl
    have hstep : dlStep st (SessEvent.updateEv z n) =
        { st with services := (update_service (dlListener st) z n).1.services } := by
      rw [dlStep, h0]
      rfl
    rw [hstep]
    exact ⟨rfl, rfl, rfl, rfl⟩
  · -- a resolved add event invokes the session callback on the updated registry
    intro st n info s hid hs
    have hn : (handle_resolved (dlListener st) n info CallbackKind.add).2 =
        [Notification.added (pyUUID s) n] := by
      unfold handle_resolved
      simp [hid, if_neg hs, dlListener, mkNotif]
    show dlApplyNotifs
        { st with services :=
            (handle_resolved (dlListener st) n info CallbackKind.add).1.services }
        ((handle_resolved (dlListener st) n info CallbackKind.add).2) = _
    rw [hn]
    rfl
  · -- identity match: record and drain
    intro st u sv hsv ht hm
    unfold listedCallback
    rw [hsv]
    dsimp only
    cases hfn : sv.friendly_name with
    | none =>
      dsimp only
      split_ifs <;>
        first
        | exact ⟨lookupA_storeAssoc_self _ _ _, rfl⟩
        | tauto
    | some f =>
      dsimp only
      split_ifs <;>
        first
        | exact ⟨lookupA_storeAssoc_self _ _ _, rfl⟩
        | tauto
  · -- friendly-name match: record and drain
    intro st u sv f hsv hfn htf hmf
    unfold listedCallback
    rw [hsv]
    dsimp only
    rw [hfn]
    dsimp only
    split_ifs <;>
      first
      | exact ⟨lookupA_storeAssoc_self _ _ _, rfl⟩
      | tauto
  · -- completion signalled exactly when both remaining criteria are falsy
    intro st u sv hsv
    unfold listedCallback
    rw [hsv]
    dsimp only
    cases hfn : sv.friendly_name with
    | none =>
      dsimp only
      split_ifs <;> (try dsimp only) <;> tauto
    | some f =>
      dsimp only
      split_ifs <;> (try dsimp only) <;> tauto
  · -- non-matching event: result dict and remaining criteria unchanged
    intro st u sv hsv hnu hnf
    unfold listedCallback
    rw [hsv]
    dsimp only
    cases hfn : sv.friendly_name with
    | none =>
      dsimp only
      split_ifs <;> exact ⟨rfl, rfl, rfl⟩
    | some f =>
      have hnf' := hnf f hfn
      dsimp only
      split_ifs <;> exact ⟨rfl, rfl, rfl⟩

/-- A concrete record for witnesses: identity `"u1"`, friendly name
`"Living Room"`. -/
def recW : CastRecord :=
  ⟨{"n1"}, "u1", some "Chromecast", some "Living Room", "10.0.0.1", 8009⟩

/-- A concrete session state for witnesses: registry holds `recW`, the caller
asked for identity `"u1"` only. -/
def dlW : DLState := ⟨[("u1", recW)], [], some ["u1"], none, false⟩

/-- Witness for C6 (amended): a matching identity is recorded and its key
drained, at the concrete state `dlW`. -/
theorem C6_amended_listed_session_witness :
    lookupA (listedCallback dlW "u1").cc_list "u1" = some recW ∧
    (listedCallback dlW "u1").uuids =
      some ((dlW.uuids.getD []).erase "u1") :=
  C6_amended_listed_session.2.2.1 dlW "u1" recW (by decide) (by decide)
    (by decide)

/-! ## C9: the connecting session (get_listed_chromecasts) -/

/-- State of one `get_listed_chromecasts` session (`__init__.py` lines
102-171).  The values of `cc_list` are the constructed `Chromecast` clients,
modelled by the service record each was built from. -/
structure GLState where
  services : List (UUID × CastRecord)
  cc_list : List (UUID × CastRecord)
  uuids : Option (List UUID)
  friendly_names : Option (List String)
  done : Bool
deriving DecidableEq

/-- One `if uuid not in cc_list: cc_list[uuid] = get_chromecast_from_uuid(uuid)`
block of the `get_listed_chromecasts` callback followed by draining the
matched key (`__init__.py` lines 150-157; the uuid branch and the
friendly-name branch are structurally identical up to which key they drain,
abstracted as `drain`).  `connect u sv` is the outcome of
`get_chromecast_from_service` (`none` = `ChromecastConnectionError` raised).
Returns the new state, the number of construction attempts made, and whether
the error was raised (aborting the rest of the `try` block with the mutations
made so far kept). -/
def glRecord (connect : UUID → CastRecord → Option CastRecord) (st : GLState)
    (u : UUID) (sv : CastRecord) (drain : GLState → GLState) :
    GLState × Nat × Bool :=
  match lookupA st.cc_list u with
  | some _ => (drain st, 0, false)
  | none =>
    match connect u sv with
    | some c => (drain { st with cc_list := storeAssoc st.cc_list u c }, 1, false)
    | none => (st, 1, true)

/-- `uuids.remove(uuid)` on the session state. -/
def glDrainU (u : UUID) (s : GLState) : GLState :=
  { s with uuids := some ((s.uuids.getD []).erase u) }

/-- `friendly_names.remove(friendly_name)` on the session state. -/
def glDrainF (f : String) (s : GLState) : GLState :=
  { s with friendly_names := some ((s.friendly_names.getD []).erase f) }

/-- The callback of `get_listed_chromecasts` (`__init__.py` lines 135-161),
invoked with a discovered identity; returns the new session state and the
number of client-construction attempts made during this invocation.  A raised
`ChromecastConnectionError` is caught by the surrounding
`except ChromecastConnectionError: pass`, skipping the rest of the `try` block
(including the completion check) but keeping mutations already made. -/
def glCallback (connect : UUID → CastRecord → Option CastRecord)
    (st : GLState) (u : UUID) : GLState × Nat :=
  match lookupA st.services u with
  | none => (st, 0)
  | some sv =>
    let b1 :=
      if truthyList st.uuids = true ∧ u ∈ st.uuids.getD [] then
        glRecord connect st u sv (glDrainU u)
      else (st, 0, false)
    if b1.2.2 then (b1.1, b1.2.1)
    else
      let b2 :=
        match sv.friendly_name with
        | some f =>
          if truthyList b1.1.friendly_names = true ∧
              f ∈ b1.1.friendly_names.getD [] then
            glRecord connect b1.1 u sv (glDrainF f)
          else (b1.1, 0, false)
        | none => (b1.1, 0, false)
      if b2.2.2 then (b2.1, b1.2.1 + b2.2.1)
      else
        (if truthyList b2.1.friendly_names = false ∧
            truthyList b2.1.uuids = false then
          { b2.1 with done := true }
        else b2.1, b1.2.1 + b2.2.1)

/-- The listener built by `get_listed_chromecasts`: `CastListener(callback)` —
only `add_callback` is supplied. -/
def glListener (st : GLState) : CastListener :=
  ⟨st.services, true, false, false⟩

/-- Deliver the listener's callback invocations to the session callback. -/
def glApplyNotifs (connect : UUID → CastRecord → Option CastRecord)
    (st : GLState) (ns : List Notification) : GLState :=
  ns.foldl (fun acc nu => match nu with
    | Notification.added u _ => (glCallback connect acc u).1
    | _ => acc) st

/-- One event of a `get_listed_chromecasts` session. -/
def glStep (connect : UUID → CastRecord → Option CastRecord)
    (st : GLState) : SessEvent → GLState
  | SessEvent.addEv z n =>
    glApplyNotifs connect
      { st with services := (add_service (glListener st) z n).1.services }
      (add_service (glListener st) z n).2.1
  | SessEvent.updateEv z n =>
    glApplyNotifs connect
      { st with services := (update_service (glListener st) z n).1.services }
      (update_service (glListener st) z n).2.1
  | SessEvent.removeEv n =>
    glApplyNotifs connect
      { st with services := (remove_service (glListener st) n).1.services }
      (remove_service (glListener st) n).2

/-- A connecting session over a sequence of announcements. -/
def glRun (connect : UUID → CastRecord → Option CastRecord)
    (st : GLState) (es : List SessEvent) : GLState :=
  es.foldl (glStep connect) st

@[simp] theorem lookupA_cons {α β : Type} [DecidableEq α] (p : α × β)
    (l : List (α × β)) (a : α) :
    lookupA (p :: l) a = if p.1 = a then some p.2 else lookupA l a := rfl

theorem lookupA_storeAssoc_ne {α β : Type} [DecidableEq α] (l : List (α × β))
    (a a' : α) (b : β) (h : a' ≠ a) :
    lookupA (storeAssoc l a b) a' = lookupA l a' := by
  induction l with
  | nil =>
    simp only [storeAssoc_nil, lookupA_cons, lookupA_nil]
    rw [if_neg (fun heq : a = a' => h heq.symm)]
  | cons p rest ih =>
    by_cases hp : p.1 = a
    · rw [storeAssoc, if_pos hp]
      rw [lookupA_cons, lookupA_cons]
      rw [if_neg (fun heq : a = a' => h heq.symm),
        if_neg (fun heq : p.1 = a' => h ((hp.symm.trans heq).symm))]
    · rw [storeAssoc, if_neg hp, lookupA_cons, lookupA_cons]
      by_cases hpa : p.1 = a'
      · rw [if_pos hpa, if_pos hpa]
      · rw [if_neg hpa, if_neg hpa]
        exact ih

theorem glRecord_hit {connect : UUID → CastRecord → Option CastRecord}
    {st : GLState} {u : UUID} {sv : CastRecord} {drain : GLState → GLState}
    {c0 : CastRecord} (hcc : lookupA st.cc_list u = some c0) :
    glRecord connect st u sv drain = (drain st, 0, false) := by
  rw [glRecord, hcc]

theorem glRecord_miss_ok {connect : UUID → CastRecord → Option CastRecord}
    {st : GLState} {u : UUID} {sv : CastRecord} {drain : GLState → GLState}
    {c : CastRecord} (hcc : lookupA st.cc_list u = none)
    (hconn : connect u sv = some c) :
    glRecord connect st u sv drain =
      (drain { st with cc_list := storeAssoc st.cc_list u c }, 1, false) := by
  rw [glRecord, hcc]
  dsimp only
  rw [hconn]

theorem glRecord_miss_fail {connect : UUID → CastRecord → Option CastRecord}
    {st : GLState} {u : UUID} {sv : CastRecord} {drain : GLState → GLState}
    (hcc : lookupA st.cc_list u = none) (hconn : connect u sv = none) :
    glRecord connect st u sv drain = (st, 1, true) := by
  rw [glRecord, hcc]
  dsimp only
  rw [hconn]

/-- Exhaustive case description of one guarded record-and-drain block. -/
theorem glRecord_cases (connect : UUID → CastRecord → Option CastRecord)
    (S : GLState) (u : UUID) (sv : CastRecord) (drain : GLState → GLState) :
    (∃ c0, lookupA S.cc_list u = some c0 ∧
      glRecord connect S u sv drain = (drain S, 0, false)) ∨
    (∃ c, lookupA S.cc_list u = none ∧ connect u sv = some c ∧
      glRecord connect S u sv drain =
        (drain { S with cc_list := storeAssoc S.cc_list u c }, 1, false)) ∨
    (lookupA S.cc_list u = none ∧ connect u sv = none ∧
      glRecord connect S u sv drain = (S, 1, true)) := by
  cases hcc : lookupA S.cc_list u with
  | some c0 => exact Or.inl ⟨c0, rfl, glRecord_hit hcc⟩
  | none =>
    cases hconn : connect u sv with
    | some c => exact Or.inr (Or.inl ⟨c, rfl, rfl, glRecord_miss_ok hcc hconn⟩)
    | none => exact Or.inr (Or.inr ⟨rfl, rfl, glRecord_miss_fail hcc hconn⟩)

@[simp] theorem glDrainU_services (u : UUID) (s : GLState) :
    (glDrainU u s).services = s.services := rfl

@[simp] theorem glDrainU_cc_list (u : UUID) (s : GLState) :
    (glDrainU u s).cc_list = s.cc_list := rfl

@[simp] theorem glDrainU_uuids (u : UUID) (s : GLState) :
    (glDrainU u s).uuids = some ((s.uuids.getD []).erase u) := rfl

@[simp] theorem glDrainU_friendly_names (u : UUID) (s : GLState) :
    (glDrainU u s).friendly_names = s.friendly_names := rfl

@[simp] theorem glDrainF_services (f : String) (s : GLState) :
    (glDrainF f s).services = s.services := rfl

@[simp] theorem glDrainF_cc_list (f : String) (s : GLState) :
    (glDrainF f s).cc_list = s.cc_list := rfl

@[simp] theorem glDrainF_uuids (f : String) (s : GLState) :
    (glDrainF f s).uuids = s.uuids := rfl

@[simp] theorem glDrainF_friendly_names (f : String) (s : GLState) :
    (glDrainF f s).friendly_names = some ((s.friendly_names.getD []).erase f) :=
  rfl

@[simp] theorem ite_done_services (c : Prop) [Decidable c] (s : GLState) :
    (if c then { s with done := true } else s).services = s.services := by
  split_ifs <;> rfl

@[simp] theorem ite_done_cc_list (c : Prop) [Decidable c] (s : GLState) :
    (if c then { s with done := true } else s).cc_list = s.cc_list := by
  split_ifs <;> rfl

@[simp] theorem ite_done_uuids (c : Prop) [Decidable c] (s : GLState) :
    (if c then { s with done := true } else s).uuids = s.uuids := by
  split_ifs <;> rfl

@[simp] theorem ite_done_friendly_names (c : Prop) [Decidable c] (s : GLState) :
    (if c then { s with done := true } else s).friendly_names =
      s.friendly_names := by
  split_ifs <;> rfl


/-- Master characterisation of one `get_listed_chromecasts` callback
invocation: at most one client-construction attempt; the registry view is
untouched; the remaining collections only ever lose the matched key; the
result dict changes at most at the invocation's identity, and only to a
successfully constructed client; a matched identity is either drained together
with a recorded client or (on a connection failure) the whole state is left
exactly unchanged after the single failed attempt; an unmatched identity
leaves the remaining identity list untouched. -/
theorem glCallback_master (connect : UUID → CastRecord → Option CastRecord)
    (st : GLState) (u : UUID) :
    (glCallback connect st u).2 ≤ 1 ∧
    (glCallback connect st u).1.services = st.services ∧
    ((glCallback connect st u).1.uuids = st.uuids ∨
      (truthyList st.uuids = true ∧
        (glCallback connect st u).1.uuids =
          some ((st.uuids.getD []).erase u))) ∧
    ((glCallback connect st u).1.friendly_names = st.friendly_names ∨
      (truthyList st.friendly_names = true ∧
        ∃ f, (glCallback connect st u).1.friendly_names =
          some ((st.friendly_names.getD []).erase f))) ∧
    (∀ u', u' ≠ u → lookupA (glCallback connect st u).1.cc_list u' =
      lookupA st.cc_list u') ∧
    (lookupA (glCallback connect st u).1.cc_list u = lookupA st.cc_list u ∨
      ∃ sv c, lookupA st.services u = some sv ∧ connect u sv = some c ∧
        lookupA (glCallback connect st u).1.cc_list u = some c) ∧
    (∀ sv0, lookupA st.services u = some sv0 →
      truthyList st.uuids = true → u ∈ st.uuids.getD [] →
      ((glCallback connect st u).1.uuids =
          some ((st.uuids.getD []).erase u) ∧
        (lookupA (glCallback connect st u).1.cc_list u).isSome = true) ∨
      glCallback connect st u = (st, 1)) ∧
    (¬(truthyList st.uuids = true ∧ u ∈ st.uuids.getD []) →
      (glCallback connect st u).1.uuids = st.uuids) := by
  unfold glCallback
  cases hsv : lookupA st.services u with
  | none =>
    exact ⟨Nat.zero_le 1, rfl, Or.inl rfl, Or.inl rfl, fun _ _ => rfl,
      Or.inl rfl, fun sv0 h' => Option.noConfusion h', fun _ => rfl⟩
  | some sv =>
    dsimp only
    by_cases hc1 : truthyList st.uuids = true ∧ u ∈ st.uuids.getD []
    · rw [if_pos hc1]
      rcases glRecord_cases connect st u sv (glDrainU u) with
        ⟨c0, hcc, heq⟩ | ⟨c, hcc, hconn, heq⟩ | ⟨hcc, hconn, heq⟩
      · -- already recorded: drain only
        rw [heq]
        dsimp only
        rw [if_neg Bool.false_ne_true]
        cases hfn : sv.friendly_name with
        | none =>
          dsimp only
          rw [if_neg Bool.false_ne_true]
          exact ⟨by norm_num, by split_ifs <;> simp,
            Or.inr ⟨hc1.1, by split_ifs <;> simp⟩,
            Or.inl (by split_ifs <;> simp),
            fun u' h' => by split_ifs <;> simp,
            Or.inl (by split_ifs <;> simp),
            fun sv0 _ _ _ => Or.inl ⟨by split_ifs <;> simp,
              by split_ifs <;> simp [hcc]⟩,
            fun hn => absurd hc1 hn⟩
        | some f =>
          dsimp only
          simp only [glDrainU_friendly_names]
          by_cases hc2 : truthyList st.friendly_names = true ∧
              f ∈ st.friendly_names.getD []
          · rw [if_pos hc2]
            rcases glRecord_cases connect (glDrainU u st) u sv (glDrainF f) with
              ⟨c0', hcc2, heq2⟩ | ⟨c', hcc2, hconn2, heq2⟩ |
              ⟨hcc2, hconn2, heq2⟩
            · rw [heq2]
              dsimp only
              rw [if_neg Bool.false_ne_true]
              exact ⟨by norm_num, by split_ifs <;> simp,
                Or.inr ⟨hc1.1, by split_ifs <;> simp⟩,
                Or.inr ⟨hc2.1, f, by split_ifs <;> simp⟩,
                fun u' h' => by split_ifs <;> simp,
                Or.inl (by split_ifs <;> simp),
                fun sv0 _ _ _ => Or.inl ⟨by split_ifs <;> simp,
                  by split_ifs <;> simp [hcc]⟩,
                fun hn => absurd hc1 hn⟩
            · simp [hcc] at hcc2
            · simp [hcc] at hcc2
          · rw [if_neg hc2]
            dsimp only
            rw [if_neg Bool.false_ne_true]
            exact ⟨by norm_num, by split_ifs <;> simp,
              Or.inr ⟨hc1.1, by split_ifs <;> simp⟩,
              Or.inl (by split_ifs <;> simp),
              fun u' h' => by split_ifs <;> simp,
              Or.inl (by split_ifs <;> simp),
              fun sv0 _ _ _ => Or.inl ⟨by split_ifs <;> simp,
                by split_ifs <;> simp [hcc]⟩,
              fun hn => absurd hc1 hn⟩
      · -- constructed and recorded, then drained
        rw [heq]
        dsimp only
        rw [if_neg Bool.false_ne_true]
        cases hfn : sv.friendly_name with
        | none =>
          dsimp only
          rw [if_neg Bool.false_ne_true]
          exact ⟨by norm_num, by split_ifs <;> simp,
            Or.inr ⟨hc1.1, by split_ifs <;> simp⟩,
            Or.inl (by split_ifs <;> simp),
            fun u' h' => by
              split_ifs <;> simp [lookupA_storeAssoc_ne _ _ _ _ h'],
            Or.inr ⟨sv, c, rfl, hconn, by
              split_ifs <;> simp [lookupA_storeAssoc_self]⟩,
            fun sv0 _ _ _ => Or.inl ⟨by split_ifs <;> simp,
              by split_ifs <;> simp [lookupA_storeAssoc_self]⟩,
            fun hn => absurd hc1 hn⟩
        | some f =>
          dsimp only
          simp only [glDrainU_friendly_names]
          by_cases hc2 : truthyList st.friendly_names = true ∧
              f ∈ st.friendly_names.getD []
          · rw [if_pos hc2]
            rcases glRecord_cases connect
                (glDrainU u { st with cc_list := storeAssoc st.cc_list u c })
                u sv (glDrainF f) with
              ⟨c0', hcc2, heq2⟩ | ⟨c', hcc2, hconn2, heq2⟩ |
              ⟨hcc2, hconn2, heq2⟩
            · rw [heq2]
              dsimp only
              rw [if_neg Bool.false_ne_true]
              exact ⟨by norm_num, by split_ifs <;> simp,
                Or.inr ⟨hc1.1, by split_ifs <;> simp⟩,
                Or.inr ⟨hc2.1, f, by split_ifs <;> simp⟩,
                fun u' h' => by
                  split_ifs <;> simp [lookupA_storeAssoc_ne _ _ _ _ h'],
                Or.inr ⟨sv, c, rfl, hconn, by
                  split_ifs <;> simp [lookupA_storeAssoc_self]⟩,
                fun sv0 _ _ _ => Or.inl ⟨by split_ifs <;> simp,
                  by split_ifs <;> simp [lookupA_storeAssoc_self]⟩,
                fun hn => absurd hc1 hn⟩
            · simp [lookupA_storeAssoc_self] at hcc2
            · simp [lookupA_storeAssoc_self] at hcc2
          · rw [if_neg hc2]
            dsimp only
            rw [if_neg Bool.false_ne_true]
            exact ⟨by norm_num, by split_ifs <;> simp,
              Or.inr ⟨hc1.1, by split_ifs <;> simp⟩,
              Or.inl (by split_ifs <;> simp),
              fun u' h' => by
                split_ifs <;> simp [lookupA_storeAssoc_ne _ _ _ _ h'],
              Or.inr ⟨sv, c, rfl, hconn, by
                split_ifs <;> simp [lookupA_storeAssoc_self]⟩,
              fun sv0 _ _ _ => Or.inl ⟨by split_ifs <;> simp,
                by split_ifs <;> simp [lookupA_storeAssoc_self]⟩,
              fun hn => absurd hc1 hn⟩
      · -- connection failure: caught, state exactly unchanged, one attempt
        rw [heq]
        dsimp only
        rw [if_pos rfl]
        exact ⟨le_refl 1, rfl, Or.inl rfl, Or.inl rfl, fun _ _ => rfl,
          Or.inl rfl, fun sv0 _ _ _ => Or.inr rfl, fun hn => absurd hc1 hn⟩
    · rw [if_neg hc1]
      dsimp only
      cases hfn : sv.friendly_name with
      | none =>
        dsimp only
        rw [if_neg Bool.false_ne_true, if_neg Bool.false_ne_true]
        exact ⟨by norm_num, by split_ifs <;> simp,
          Or.inl (by split_ifs <;> simp),
          Or.inl (by split_ifs <;> simp),
          fun u' h' => by split_ifs <;> simp,
          Or.inl (by split_ifs <;> simp),
          fun sv0 _ h1 h2 => absurd ⟨h1, h2⟩ hc1,
          fun _ => by split_ifs <;> simp⟩
      | some f =>
        dsimp only
        rw [if_neg Bool.false_ne_true]
        by_cases hc2 : truthyList st.friendly_names = true ∧
            f ∈ st.friendly_names.getD []
        · rw [if_pos hc2]
          rcases glRecord_cases connect st u sv (glDrainF f) with
            ⟨c0, hcc2, heq2⟩ | ⟨c, hcc2, hconn2, heq2⟩ | ⟨hcc2, hconn2, heq2⟩
          · rw [heq2]
            dsimp only
            rw [if_neg Bool.false_ne_true]
            exact ⟨by norm_num, by split_ifs <;> simp,
              Or.inl (by split_ifs <;> simp),
              Or.inr ⟨hc2.1, f, by split_ifs <;> simp⟩,
              fun u' h' => by split_ifs <;> simp,
              Or.inl (by split_ifs <;> simp),
              fun sv0 _ h1 h2 => absurd ⟨h1, h2⟩ hc1,
              fun _ => by split_ifs <;> simp⟩
          · rw [heq2]
            dsimp only
            rw [if_neg Bool.false_ne_true]
            exact ⟨by norm_num, by split_ifs <;> simp,
              Or.inl (by split_ifs <;> simp),
              Or.inr ⟨hc2.1, f, by split_ifs <;> simp⟩,
              fun u' h' => by
                split_ifs <;> simp [lookupA_storeAssoc_ne _ _ _ _ h'],
              Or.inr ⟨sv, c, rfl, hconn2, by
                split_ifs <;> simp [lookupA_storeAssoc_self]⟩,
              fun sv0 _ h1 h2 => absurd ⟨h1, h2⟩ hc1,
              fun _ => by split_ifs <;> simp⟩
          · rw [heq2]
            dsimp only
            rw [if_pos rfl]
            exact ⟨by norm_num, rfl, Or.inl rfl, Or.inl rfl, fun _ _ => rfl,
              Or.inl rfl, fun sv0 _ h1 h2 => absurd ⟨h1, h2⟩ hc1,
              fun _ => rfl⟩
        · rw [if_neg hc2]
          dsimp only
          rw [if_neg Bool.false_ne_true]
          exact ⟨by norm_num, by split_ifs <;> simp,
            Or.inl (by split_ifs <;> simp),
            Or.inl (by split_ifs <;> simp),
            fun u' h' => by split_ifs <;> simp,
            Or.inl (by split_ifs <;> simp),
            fun sv0 _ h1 h2 => absurd ⟨h1, h2⟩ hc1,
            fun _ => by split_ifs <;> simp⟩

theorem glApplyNotifs_cc_none {connect : UUID → CastRecord → Option CastRecord}
    {u : UUID} (ns : List Notification) {st : GLState}
    (hconn : ∀ sv, connect u sv = none) (h : lookupA st.cc_list u = none) :
    lookupA (glApplyNotifs connect st ns).cc_list u = none := by
  induction ns generalizing st with
  | nil => exact h
  | cons nu ns ih =>
    cases nu with
    | added u' _ =>
      apply ih
      obtain ⟨_, _, _, _, hne, hat, _, _⟩ := glCallback_master connect st u'
      by_cases hu : u = u'
      · subst hu
        rcases hat with h1 | ⟨sv, c, _, hc, _⟩
        · rw [h1]
          exact h
        · rw [hconn sv] at hc
          cases hc
      · rw [hne u hu]
        exact h
    | updated _ _ => exact ih h
    | removed _ _ _ => exact ih h

theorem glStep_cc_none {connect : UUID → CastRecord → Option CastRecord}
    {u : UUID} {st : GLState} (e : SessEvent)
    (hconn : ∀ sv, connect u sv = none) (h : lookupA st.cc_list u = none) :
    lookupA (glStep connect st e).cc_list u = none := by
  cases e with
  | addEv z n => exact glApplyNotifs_cc_none _ hconn h
  | updateEv z n => exact glApplyNotifs_cc_none _ hconn h
  | removeEv n => exact glApplyNotifs_cc_none _ hconn h

theorem glRun_cc_none {connect : UUID → CastRecord → Option CastRecord}
    {u : UUID} (es : List SessEvent) {st : GLState}
    (hconn : ∀ sv, connect u sv = none) (h : lookupA st.cc_list u = none) :
    lookupA (glRun connect st es).cc_list u = none := by
  induction es generalizing st with
  | nil => exact h
  | cons e es ih => exact ih (glStep_cc_none e hconn h)

/-- C9.  In `get_listed_chromecasts`, a `ChromecastConnectionError` while
constructing the client for a matched candidate is caught: the callback
returns normally with the session state exactly unchanged (so the session
keeps processing further events without aborting), the candidate is absent
from the result dict — and stays absent for the whole session while its
construction keeps failing — and the construction is attempted at most once
per delivered event, i.e. it is not retried at this layer. -/
theorem C9_connection_failure_handling :
    (∀ connect (st : GLState) (u : UUID), (glCallback connect st u).2 ≤ 1) ∧
    (∀ connect (st : GLState) (u : UUID) sv,
      lookupA st.services u = some sv →
      truthyList st.uuids = true → u ∈ st.uuids.getD [] →
      lookupA st.cc_list u = none → connect u sv = none →
      glCallback connect st u = (st, 1)) ∧
    (∀ connect (st0 : GLState) (es : List SessEvent) (u : UUID),
      (∀ sv, connect u sv = none) → lookupA st0.cc_list u = none →
      lookupA (glRun connect st0 es).cc_list u = none) := by
  refine ⟨?_, ?_, ?_⟩
  · intro connect st u
    exact (glCallback_master connect st u).1
  · intro connect st u sv hsv ht hm hcc hconn
    unfold glCallback
    rw [hsv]
    dsimp only
    rw [if_pos (show truthyList st.uuids = true ∧ u ∈ st.uuids.getD [] from
      ⟨ht, hm⟩), glRecord_miss_fail hcc hconn]
    dsimp only
    rw [if_pos rfl]
  · intro connect st0 es u hconn h
    exact glRun_cc_none es hconn h

/-- A concrete connecting-session state for witnesses: registry holds `recW`,
caller asked for identity `"u1"`, nothing recorded yet. -/
def glW : GLState := ⟨[("u1", recW)], [], some ["u1"], none, false⟩

/-- Witness for C9 at the concrete state `glW` with an always-failing
constructor: the callback returns normally with the state unchanged after
exactly one attempt, and the candidate is absent after a whole session. -/
theorem C9_connection_failure_handling_witness :
    glCallback (fun _ _ => none) glW "u1" = (glW, 1) ∧
    lookupA (glRun (fun _ _ => none) glW [SessEvent.addEv zOk "n1"]).cc_list
      "u1" = none :=
  ⟨C9_connection_failure_handling.2.1 (fun _ _ => none) glW "u1" recW
      (by decide) (by decide) (by decide) rfl rfl,
    C9_connection_failure_handling.2.2 (fun _ _ => none) glW
      [SessEvent.addEv zOk "n1"] "u1" (fun _ => rfl) rfl⟩

/-! ## C10: in-place draining of the caller's criteria collections -/

theorem glCallback_no_record {connect : UUID → CastRecord → Option CastRecord}
    {st : GLState} {u : UUID} (h : lookupA st.services u = none) :
    glCallback connect st u = (st, 0) := by
  unfold glCallback
  rw [h]

theorem listedCallback_no_record {st : DLState} {u : UUID}
    (h : lookupA st.services u = none) : listedCallback st u = st := by
  unfold listedCallback
  rw [h]

/-- Master characterisation of one `discover_listed_chromecasts` callback
invocation, mirroring `glCallback_master`: the registry view is untouched, the
caller's collections only ever lose the matched key, the result dict changes
at most at the invocation's identity (to that identity's record), a matched
identity is always drained and recorded, and an unmatched identity leaves the
remaining identity list untouched. -/
theorem listedCallback_master (st : DLState) (u : UUID) :
    (listedCallback st u).services = st.services ∧
    ((listedCallback st u).uuids = st.uuids ∨
      (truthyList st.uuids = true ∧
        (listedCallback st u).uuids = some ((st.uuids.getD []).erase u))) ∧
    ((listedCallback st u).friendly_names = st.friendly_names ∨
      (truthyList st.friendly_names = true ∧
        ∃ f, (listedCallback st u).friendly_names =
          some ((st.friendly_names.getD []).erase f))) ∧
    (∀ u', u' ≠ u → lookupA (listedCallback st u).cc_list u' =
      lookupA st.cc_list u') ∧
    (lookupA (listedCallback st u).cc_list u = lookupA st.cc_list u ∨
      ∃ sv, lookupA st.services u = some sv ∧
        lookupA (listedCallback st u).cc_list u = some sv) ∧
    (∀ sv0, lookupA st.services u = some sv0 →
      truthyList st.uuids = true → u ∈ st.uuids.getD [] →
      ((listedCallback st u).uuids = some ((st.uuids.getD []).erase u) ∧
        (lookupA (listedCallback st u).cc_list u).isSome = true)) ∧
    (¬(truthyList st.uuids = true ∧ u ∈ st.uuids.getD []) →
      (listedCallback st u).uuids = st.uuids) := by
  unfold listedCallback
  cases hsv : lookupA st.services u with
  | none =>
    exact ⟨rfl, Or.inl rfl, Or.inl rfl, fun _ _ => rfl, Or.inl rfl,
      fun sv0 h' => Option.noConfusion h', fun _ => rfl⟩
  | some sv =>
    dsimp only
    by_cases hc1 : truthyList st.uuids = true ∧ u ∈ st.uuids.getD []
    · rw [if_pos hc1]
      dsimp only
      cases hfn : sv.friendly_name with
      | none =>
        dsimp only
        split_ifs <;>
          exact ⟨by simp, Or.inr ⟨hc1.1, by simp⟩, Or.inl (by simp),
            fun u' h' => by simp [lookupA_storeAssoc_ne _ _ _ _ h'],
            Or.inr ⟨sv, rfl, by simp [lookupA_storeAssoc_self]⟩,
            fun sv0 _ _ _ => ⟨by simp, by simp [lookupA_storeAssoc_self]⟩,
            fun hn => absurd hc1 hn⟩
      | some f =>
        dsimp only
        by_cases hc2 : truthyList st.friendly_names = true ∧
            f ∈ st.friendly_names.getD []
        · rw [if_pos hc2]
          split_ifs <;>
            exact ⟨by simp, Or.inr ⟨hc1.1, by simp⟩,
              Or.inr ⟨hc2.1, f, by simp⟩,
              fun u' h' => by simp [lookupA_storeAssoc_ne _ _ _ _ h'],
              Or.inr ⟨sv, rfl, by simp [lookupA_storeAssoc_self]⟩,
              fun sv0 _ _ _ => ⟨by simp, by simp [lookupA_storeAssoc_self]⟩,
              fun hn => absurd hc1 hn⟩
        · rw [if_neg hc2]
          split_ifs <;>
            exact ⟨by simp, Or.inr ⟨hc1.1, by simp⟩, Or.inl (by simp),
              fun u' h' => by simp [lookupA_storeAssoc_ne _ _ _ _ h'],
              Or.inr ⟨sv, rfl, by simp [lookupA_storeAssoc_self]⟩,
              fun sv0 _ _ _ => ⟨by simp, by simp [lookupA_storeAssoc_self]⟩,
              fun hn => absurd hc1 hn⟩
    · rw [if_neg hc1]
      cases hfn : sv.friendly_name with
      | none =>
        dsimp only
        split_ifs <;>
          exact ⟨by simp, Or.inl (by simp), Or.inl (by simp),
            fun u' h' => by simp, Or.inl (by simp),
            fun sv0 _ h1 h2 => absurd ⟨h1, h2⟩ hc1, fun _ => by simp⟩
      | some f =>
        dsimp only
        by_cases hc2 : truthyList st.friendly_names = true ∧
            f ∈ st.friendly_names.getD []
        · rw [if_pos hc2]
          split_ifs <;>
            exact ⟨by simp, Or.inl (by simp), Or.inr ⟨hc2.1, f, by simp⟩,
              fun u' h' => by simp [lookupA_storeAssoc_ne _ _ _ _ h'],
              Or.inr ⟨sv, rfl, by simp [lookupA_storeAssoc_self]⟩,
              fun sv0 _ h1 h2 => absurd ⟨h1, h2⟩ hc1, fun _ => by simp⟩
        · rw [if_neg hc2]
          split_ifs <;>
            exact ⟨by simp, Or.inl (by simp), Or.inl (by simp),
              fun u' h' => by simp, Or.inl (by simp),
              fun sv0 _ h1 h2 => absurd ⟨h1, h2⟩ hc1, fun _ => by simp⟩

/-- The left collection is the same `None`, or a sublist of the original
list: keys are only ever removed, never added or reordered. -/
def optSub {α : Type} : Option (List α) → Option (List α) → Prop
  | none, none => True
  | some l1, some l0 => List.Sublist l1 l0
  | _, _ => False

theorem optSub_refl {α : Type} (o : Option (List α)) : optSub o o := by
  cases o with
  | none => trivial
  | some l => exact List.Sublist.refl l

theorem optSub_trans {α : Type} {a b c : Option (List α)}
    (h1 : optSub a b) (h2 : optSub b c) : optSub a c := by
  cases a <;> cases b <;> cases c <;>
    first
    | trivial
    | exact h1.elim
    | exact h2.elim
    | exact List.Sublist.trans h1 h2

theorem truthy_some {α : Type} {o : Option (List α)}
    (h : truthyList o = true) : ∃ l, o = some l := by
  cases o with
  | none => simp [truthyList] at h
  | some l => exact ⟨l, rfl⟩

theorem optSub_of_erase {α : Type} [DecidableEq α] {o o' : Option (List α)}
    {x : α} (ht : truthyList o = true) (h : o' = some ((o.getD []).erase x)) :
    optSub o' o := by
  obtain ⟨l, rfl⟩ := truthy_some ht
  rw [h]
  exact List.erase_sublist x l

theorem listedCallback_optSub (st : DLState) (u : UUID) :
    optSub (listedCallback st u).uuids st.uuids ∧
    optSub (listedCallback st u).friendly_names st.friendly_names := by
  obtain ⟨_, hu, hf, _⟩ := listedCallback_master st u
  constructor
  · rcases hu with h | ⟨ht, h⟩
    · rw [h]
      exact optSub_refl _
    · exact optSub_of_erase ht h
  · rcases hf with h | ⟨ht, f, h⟩
    · rw [h]
      exact optSub_refl _
    · exact optSub_of_erase ht h

theorem glCallback_optSub (connect : UUID → CastRecord → Option CastRecord)
    (st : GLState) (u : UUID) :
    optSub (glCallback connect st u).1.uuids st.uuids ∧
    optSub (glCallback connect st u).1.friendly_names st.friendly_names := by
  obtain ⟨_, _, hu, hf, _⟩ := glCallback_master connect st u
  constructor
  · rcases hu with h | ⟨ht, h⟩
    · rw [h]
      exact optSub_refl _
    · exact optSub_of_erase ht h
  · rcases hf with h | ⟨ht, f, h⟩
    · rw [h]
      exact optSub_refl _
    · exact optSub_of_erase ht h

theorem dlApplyNotifs_optSub (ns : List Notification) (st : DLState) :
    optSub (dlApplyNotifs st ns).uuids st.uuids ∧
    optSub (dlApplyNotifs st ns).friendly_names st.friendly_names := by
  induction ns generalizing st with
  | nil => exact ⟨optSub_refl _, optSub_refl _⟩
  | cons nu ns ih =>
    cases nu with
    | added u _ =>
      obtain ⟨h1, h2⟩ := ih (listedCallback st u)
      obtain ⟨g1, g2⟩ := listedCallback_optSub st u
      exact ⟨optSub_trans h1 g1, optSub_trans h2 g2⟩
    | updated _ _ => exact ih st
    | removed _ _ _ => exact ih st

theorem dlStep_optSub (st : DLState) (e : SessEvent) :
    optSub (dlStep st e).uuids st.uuids ∧
    optSub (dlStep st e).friendly_names st.friendly_names := by
  cases e with
  | addEv z n => exact dlApplyNotifs_optSub _ _
  | updateEv z n => exact dlApplyNotifs_optSub _ _
  | removeEv n => exact dlApplyNotifs_optSub _ _

theorem dlRun_optSub (es : List SessEvent) (st : DLState) :
    optSub (dlRun st es).uuids st.uuids ∧
    optSub (dlRun st es).friendly_names st.friendly_names := by
  induction es generalizing st with
  | nil => exact ⟨optSub_refl _, optSub_refl _⟩
  | cons e es ih =>
    obtain ⟨h1, h2⟩ := ih (dlStep st e)
    obtain ⟨g1, g2⟩ := dlStep_optSub st e
    exact ⟨optSub_trans h1 g1, optSub_trans h2 g2⟩

theorem glApplyNotifs_optSub (connect : UUID → CastRecord → Option CastRecord)
    (ns : List Notification) (st : GLState) :
    optSub (glApplyNotifs connect st ns).uuids st.uuids ∧
    optSub (glApplyNotifs connect st ns).friendly_names st.friendly_names := by
  induction ns generalizing st with
  | nil => exact ⟨optSub_refl _, optSub_refl _⟩
  | cons nu ns ih =>
    cases nu with
    | added u _ =>
      obtain ⟨h1, h2⟩ := ih (glCallback connect st u).1
      obtain ⟨g1, g2⟩ := glCallback_optSub connect st u
      exact ⟨optSub_trans h1 g1, optSub_trans h2 g2⟩
    | updated _ _ => exact ih st
    | removed _ _ _ => exact ih st

theorem glStep_optSub (connect : UUID → CastRecord → Option CastRecord)
    (st : GLState) (e : SessEvent) :
    optSub (glStep connect st e).uuids st.uuids ∧
    optSub (glStep connect st e).friendly_names st.friendly_names := by
  cases e with
  | addEv z n => exact glApplyNotifs_optSub _ _ _
  | updateEv z n => exact glApplyNotifs_optSub _ _ _
  | removeEv n => exact glApplyNotifs_optSub _ _ _

theorem glRun_optSub (connect : UUID → CastRecord → Option CastRecord)
    (es : List SessEvent) (st : GLState) :
    optSub (glRun connect st es).uuids st.uuids ∧
    optSub (glRun connect st es).friendly_names st.friendly_names := by
  induction es generalizing st with
  | nil => exact ⟨optSub_refl _, optSub_refl _⟩
  | cons e es ih =>
    obtain ⟨h1, h2⟩ := ih (glStep connect st e)
    obtain ⟨g1, g2⟩ := glStep_optSub connect st e
    exact ⟨optSub_trans h1 g1, optSub_trans h2 g2⟩

/-- Tracking one requested identity `u0` through a session: the caller's
identity list holds `u0` exactly as long as no client/record has been
recorded for it in the result dict. -/
def RemInv (u0 : UUID) (uu : Option (List UUID))
    (cc : List (UUID × CastRecord)) : Prop :=
  ∃ l, uu = some l ∧ l.Nodup ∧ (u0 ∈ l ↔ lookupA cc u0 = none)

theorem listedCallback_RemInv {u0 : UUID} {st : DLState} (u : UUID)
    (h : RemInv u0 st.uuids st.cc_list) :
    RemInv u0 (listedCallback st u).uuids (listedCallback st u).cc_list := by
  obtain ⟨l, hl, hnd, hiff⟩ := h
  obtain ⟨_, hu, _, hne, hat, hmatch, hnomatch⟩ := listedCallback_master st u
  by_cases hu0 : u0 = u
  · subst hu0
    cases hsv : lookupA st.services u0 with
    | none =>
      rw [listedCallback_no_record hsv]
      exact ⟨l, hl, hnd, hiff⟩
    | some sv =>
      by_cases hmem : u0 ∈ l
      · have hlne : l ≠ [] := List.ne_nil_of_mem hmem
        have ht : truthyList st.uuids = true := by
          rw [hl]
          simp [truthyList, List.isEmpty_iff, hlne]
        have hmem' : u0 ∈ st.uuids.getD [] := by
          rw [hl]
          exact hmem
        obtain ⟨hdrain, hrec⟩ := hmatch sv hsv ht hmem'
        refine ⟨l.erase u0, ?_, hnd.erase _, ?_, ?_⟩
        · rw [hdrain, hl]
          rfl
        · intro hin
          exact ((hnd.not_mem_erase) hin).elim
        · intro hnone
          rw [hnone] at hrec
          simp at hrec
      · have hnc1 : ¬(truthyList st.uuids = true ∧ u0 ∈ st.uuids.getD []) := by
          rintro ⟨_, hm⟩
          rw [hl] at hm
          exact hmem hm
        refine ⟨l, by rw [hnomatch hnc1, hl], hnd, ?_, ?_⟩
        · intro hin
          exact absurd hin hmem
        · intro hnone
          rcases hat with h' | ⟨sv', _, h'⟩
          · rw [h'] at hnone
            exact absurd (hiff.mpr hnone) hmem
          · rw [h'] at hnone
            exact Option.noConfusion hnone
  · rcases hu with h' | ⟨_, h'⟩
    · refine ⟨l, by rw [h', hl], hnd, ?_⟩
      rw [hne u0 hu0]
      exact hiff
    · refine ⟨l.erase u, ?_, hnd.erase _, ?_⟩
      · rw [h', hl]
        rfl
      · rw [hne u0 hu0, List.mem_erase_of_ne hu0]
        exact hiff

theorem glCallback_RemInv (connect : UUID → CastRecord → Option CastRecord)
    {u0 : UUID} {st : GLState} (u : UUID)
    (h : RemInv u0 st.uuids st.cc_list) :
    RemInv u0 (glCallback connect st u).1.uuids
      (glCallback connect st u).1.cc_list := by
  obtain ⟨l, hl, hnd, hiff⟩ := h
  obtain ⟨_, _, hu, _, hne, hat, hmatch, hnomatch⟩ :=
    glCallback_master connect st u
  by_cases hu0 : u0 = u
  · subst hu0
    cases hsv : lookupA st.services u0 with
    | none =>
      rw [glCallback_no_record hsv]
      exact ⟨l, hl, hnd, hiff⟩
    | some sv =>
      by_cases hmem : u0 ∈ l
      · have hlne : l ≠ [] := List.ne_nil_of_mem hmem
        have ht : truthyList st.uuids = true := by
          rw [hl]
          simp [truthyList, List.isEmpty_iff, hlne]
        have hmem' : u0 ∈ st.uuids.getD [] := by
          rw [hl]
          exact hmem
        rcases hmatch sv hsv ht hmem' with ⟨hdrain, hrec⟩ | hfail
        · refine ⟨l.erase u0, ?_, hnd.erase _, ?_, ?_⟩
          · rw [hdrain, hl]
            rfl
          · intro hin
            exact ((hnd.not_mem_erase) hin).elim
          · intro hnone
            rw [hnone] at hrec
            simp at hrec
        · rw [hfail]
          exact ⟨l, hl, hnd, hiff⟩
      · have hnc1 : ¬(truthyList st.uuids = true ∧
            u0 ∈ st.uuids.getD []) := by
          rintro ⟨_, hm⟩
          rw [hl] at hm
          exact hmem hm
        refine ⟨l, by rw [hnomatch hnc1, hl], hnd, ?_, ?_⟩
        · intro hin
          exact absurd hin hmem
        · intro hnone
          rcases hat with h' | ⟨sv', c', _, _, h'⟩
          · rw [h'] at hnone
            exact absurd (hiff.mpr hnone) hmem
          · rw [h'] at hnone
            exact Option.noConfusion hnone
  · rcases hu with h' | ⟨_, h'⟩
    · refine ⟨l, by rw [h', hl], hnd, ?_⟩
      rw [hne u0 hu0]
      exact hiff
    · refine ⟨l.erase u, ?_, hnd.erase _, ?_⟩
      · rw [h', hl]
        rfl
      · rw [hne u0 hu0, List.mem_erase_of_ne hu0]
        exact hiff

theorem dlApplyNotifs_RemInv {u0 : UUID} (ns : List Notification)
    {st : DLState} (h : RemInv u0 st.uuids st.cc_list) :
    RemInv u0 (dlApplyNotifs st ns).uuids (dlApplyNotifs st ns).cc_list := by
  induction ns generalizing st with
  | nil => exact h
  | cons nu ns ih =>
    cases nu with
    | added u _ => exact ih (listedCallback_RemInv u h)
    | updated _ _ => exact ih h
    | removed _ _ _ => exact ih h

theorem dlStep_RemInv {u0 : UUID} {st : DLState} (e : SessEvent)
    (h : RemInv u0 st.uuids st.cc_list) :
    RemInv u0 (dlStep st e).uuids (dlStep st e).cc_list := by
  cases e with
  | addEv z n => exact dlApplyNotifs_RemInv _ h
  | updateEv z n => exact dlApplyNotifs_RemInv _ h
  | removeEv n => exact dlApplyNotifs_RemInv _ h

theorem dlRun_RemInv {u0 : UUID} (es : List SessEvent) {st : DLState}
    (h : RemInv u0 st.uuids st.cc_list) :
    RemInv u0 (dlRun st es).uuids (dlRun st es).cc_list := by
  induction es generalizing st with
  | nil => exact h
  | cons e es ih => exact ih (dlStep_RemInv e h)

theorem glApplyNotifs_RemInv (connect : UUID → CastRecord → Option CastRecord)
    {u0 : UUID} (ns : List Notification) {st : GLState}
    (h : RemInv u0 st.uuids st.cc_list) :
    RemInv u0 (glApplyNotifs connect st ns).uuids
      (glApplyNotifs connect st ns).cc_list := by
  induction ns generalizing st with
  | nil => exact h
  | cons nu ns ih =>
    cases nu with
    | added u _ => exact ih (glCallback_RemInv connect u h)
    | updated _ _ => exact ih h
    | removed _ _ _ => exact ih h

theorem glStep_RemInv (connect : UUID → CastRecord → Option CastRecord)
    {u0 : UUID} {st : GLState} (e : SessEvent)
    (h : RemInv u0 st.uuids st.cc_list) :
    RemInv u0 (glStep connect st e).uuids (glStep connect st e).cc_list := by
  cases e with
  | addEv z n => exact glApplyNotifs_RemInv connect _ h
  | updateEv z n => exact glApplyNotifs_RemInv connect _ h
  | removeEv n => exact glApplyNotifs_RemInv connect _ h

theorem glRun_RemInv (connect : UUID → CastRecord → Option CastRecord)
    {u0 : UUID} (es : List SessEvent) {st : GLState}
    (h : RemInv u0 st.uuids st.cc_list) :
    RemInv u0 (glRun connect st es).uuids (glRun connect st es).cc_list := by
  induction es generalizing st with
  | nil => exact h
  | cons e es ih => exact ih (glStep_RemInv connect e h)

/-- The `discover_listed_chromecasts` callback invocation for identity `u`
name-matches the requested friendly name `f0`: the identity's record exists,
its friendly name is `f0`, and `f0` is in the (truthy) remaining name list. -/
def dlNameMatched (st : DLState) (u : UUID) (f0 : String) : Prop :=
  ∃ sv, lookupA st.services u = some sv ∧ sv.friendly_name = some f0 ∧
    truthyList st.friendly_names = true ∧ f0 ∈ st.friendly_names.getD []

/-- The `get_listed_chromecasts` callback invocation for identity `u`
name-matches `f0` and completes the match: additionally, no
`ChromecastConnectionError` aborts the callback before the name key is
drained — which happens exactly when the candidate is not yet recorded and
its construction fails. -/
def glNameMatched (connect : UUID → CastRecord → Option CastRecord)
    (st : GLState) (u : UUID) (f0 : String) : Prop :=
  ∃ sv, lookupA st.services u = some sv ∧ sv.friendly_name = some f0 ∧
    truthyList st.friendly_names = true ∧ f0 ∈ st.friendly_names.getD [] ∧
    ¬(lookupA st.cc_list u = none ∧ connect u sv = none)

/-- Exclusive description of what one `discover_listed_chromecasts` callback
invocation does to the caller's `friendly_names` collection: either it
name-matches no requested name and leaves the collection untouched, or the
invoked record's friendly name is in the remaining list and exactly that key
is erased. -/
theorem listedCallback_fns_cases (st : DLState) (u : UUID) :
    ((listedCallback st u).friendly_names = st.friendly_names ∧
      ∀ f0, ¬ dlNameMatched st u f0) ∨
    (∃ sv f, lookupA st.services u = some sv ∧ sv.friendly_name = some f ∧
      truthyList st.friendly_names = true ∧ f ∈ st.friendly_names.getD [] ∧
      (listedCallback st u).friendly_names =
        some ((st.friendly_names.getD []).erase f)) := by
  unfold listedCallback
  cases hsv : lookupA st.services u with
  | none =>
    left
    refine ⟨rfl, ?_⟩
    rintro f0 ⟨sv', hsv', -, -, -⟩
    rw [hsv] at hsv'
    exact Option.noConfusion hsv'
  | some sv =>
    dsimp only
    by_cases hc1 : truthyList st.uuids = true ∧ u ∈ st.uuids.getD []
    · rw [if_pos hc1]
      dsimp only
      cases hfn : sv.friendly_name with
      | none =>
        left
        constructor
        · dsimp only
          split_ifs <;> simp
        · rintro f0 ⟨sv', hsv', hfn', -, -⟩
          rw [hsv] at hsv'
          injection hsv' with hsv''
          subst hsv''
          rw [hfn] at hfn'
          exact Option.noConfusion hfn'
      | some f =>
        dsimp only
        by_cases hc2 : truthyList st.friendly_names = true ∧
            f ∈ st.friendly_names.getD []
        · right
          refine ⟨sv, f, rfl, hfn, hc2.1, hc2.2, ?_⟩
          rw [if_pos hc2]
          split_ifs <;> simp
        · left
          constructor
          · rw [if_neg hc2]
            split_ifs <;> simp
          · rintro f0 ⟨sv', hsv', hfn', ht0, hm0⟩
            rw [hsv] at hsv'
            injection hsv' with hsv''
            subst hsv''
            rw [hfn] at hfn'
            injection hfn' with hfn''
            subst hfn''
            exact hc2 ⟨ht0, hm0⟩
    · rw [if_neg hc1]
      cases hfn : sv.friendly_name with
      | none =>
        left
        constructor
        · dsimp only
          split_ifs <;> simp
        · rintro f0 ⟨sv', hsv', hfn', -, -⟩
          rw [hsv] at hsv'
          injection hsv' with hsv''
          subst hsv''
          rw [hfn] at hfn'
          exact Option.noConfusion hfn'
      | some f =>
        dsimp only
        by_cases hc2 : truthyList st.friendly_names = true ∧
            f ∈ st.friendly_names.getD []
        · right
          refine ⟨sv, f, rfl, hfn, hc2.1, hc2.2, ?_⟩
          rw [if_pos hc2]
          split_ifs <;> simp
        · left
          constructor
          · rw [if_neg hc2]
            split_ifs <;> simp
          · rintro f0 ⟨sv', hsv', hfn', ht0, hm0⟩
            rw [hsv] at hsv'
            injection hsv' with hsv''
            subst hsv''
            rw [hfn] at hfn'
            injection hfn' with hfn''
            subst hfn''
            exact hc2 ⟨ht0, hm0⟩

/-- Exclusive description of what one `get_listed_chromecasts` callback
invocation does to the caller's `friendly_names` collection: either no
requested name completes a match and the collection is untouched, or the
invoked record's friendly name is in the remaining list, no connection
failure aborts the callback, and exactly that key is erased. -/
theorem glCallback_fns_cases (connect : UUID → CastRecord → Option CastRecord)
    (st : GLState) (u : UUID) :
    ((glCallback connect st u).1.friendly_names = st.friendly_names ∧
      ∀ f0, ¬ glNameMatched connect st u f0) ∨
    (∃ sv f, lookupA st.services u = some sv ∧ sv.friendly_name = some f ∧
      truthyList st.friendly_names = true ∧ f ∈ st.friendly_names.getD [] ∧
      ¬(lookupA st.cc_list u = none ∧ connect u sv = none) ∧
      (glCallback connect st u).1.friendly_names =
        some ((st.friendly_names.getD []).erase f)) := by
  unfold glCallback
  cases hsv : lookupA st.services u with
  | none =>
    left
    refine ⟨rfl, ?_⟩
    rintro f0 ⟨sv', hsv', -, -, -, -⟩
    rw [hsv] at hsv'
    exact Option.noConfusion hsv'
  | some sv =>
    dsimp only
    by_cases hc1 : truthyList st.uuids = true ∧ u ∈ st.uuids.getD []
    · rw [if_pos hc1]
      rcases glRecord_cases connect st u sv (glDrainU u) with
        ⟨c0, hcc, heq⟩ | ⟨c, hcc, hconn, heq⟩ | ⟨hcc, hconn, heq⟩
      · rw [heq]
        dsimp only
        rw [if_neg Bool.false_ne_true]
        cases hfn : sv.friendly_name with
        | none =>
          dsimp only
          rw [if_neg Bool.false_ne_true]
          left
          constructor
          · split_ifs <;> simp
          · rintro f0 ⟨sv', hsv', hfn', -, -, -⟩
            rw [hsv] at hsv'
            injection hsv' with hsv''
            subst hsv''
            rw [hfn] at hfn'
            exact Option.noConfusion hfn'
        | some f =>
          dsimp only
          simp only [glDrainU_friendly_names]
          by_cases hc2 : truthyList st.friendly_names = true ∧
              f ∈ st.friendly_names.getD []
          · rw [if_pos hc2]
            rcases glRecord_cases connect (glDrainU u st) u sv (glDrainF f) with
              ⟨c0', hcc2, heq2⟩ | ⟨c', hcc2, hconn2, heq2⟩ |
              ⟨hcc2, hconn2, heq2⟩
            · rw [heq2]
              dsimp only
              rw [if_neg Bool.false_ne_true]
              right
              exact ⟨sv, f, rfl, hfn, hc2.1, hc2.2,
                fun hx => by rw [hcc] at hx; exact Option.noConfusion hx.1,
                by split_ifs <;> simp⟩
            · simp [hcc] at hcc2
            · simp [hcc] at hcc2
          · rw [if_neg hc2]
            dsimp only
            rw [if_neg Bool.false_ne_true]
            left
            constructor
            · split_ifs <;> simp
            · rintro f0 ⟨sv', hsv', hfn', ht0, hm0, -⟩
              rw [hsv] at hsv'
              injection hsv' with hsv''
              subst hsv''
              rw [hfn] at hfn'
              injection hfn' with hfn''
              subst hfn''
              exact hc2 ⟨ht0, hm0⟩
      · rw [heq]
        dsimp only
        rw [if_neg Bool.false_ne_true]
        cases hfn : sv.friendly_name with
        | none =>
          dsimp only
          rw [if_neg Bool.false_ne_true]
          left
          constructor
          · split_ifs <;> simp
          · rintro f0 ⟨sv', hsv', hfn', -, -, -⟩
            rw [hsv] at hsv'
            injection hsv' with hsv''
            subst hsv''
            rw [hfn] at hfn'
            exact Option.noConfusion hfn'
        | some f =>
          dsimp only
          simp only [glDrainU_friendly_names]
          by_cases hc2 : truthyList st.friendly_names = true ∧
              f ∈ st.friendly_names.getD []
          · rw [if_pos hc2]
            rcases glRecord_cases connect
                (glDrainU u { st with cc_list := storeAssoc st.cc_list u c })
                u sv (glDrainF f) with
              ⟨c0', hcc2, heq2⟩ | ⟨c', hcc2, hconn2, heq2⟩ |
              ⟨hcc2, hconn2, heq2⟩
            · rw [heq2]
              dsimp only
              rw [if_neg Bool.false_ne_true]
              right
              exact ⟨sv, f, rfl, hfn, hc2.1, hc2.2,
                fun hx => by rw [hconn] at hx; exact Option.noConfusion hx.2,
                by split_ifs <;> simp⟩
            · simp [lookupA_storeAssoc_self] at hcc2
            · simp [lookupA_storeAssoc_self] at hcc2
          · rw [if_neg hc2]
            dsimp only
            rw [if_neg Bool.false_ne_true]
            left
            constructor
            · split_ifs <;> simp
            · rintro f0 ⟨sv', hsv', hfn', ht0, hm0, -⟩
              rw [hsv] at hsv'
              injection hsv' with hsv''
              subst hsv''
              rw [hfn] at hfn'
              injection hfn' with hfn''
              subst hfn''
              exact hc2 ⟨ht0, hm0⟩
      · rw [heq]
        dsimp only
        rw [if_pos rfl]
        left
        constructor
        · rfl
        · rintro f0 ⟨sv', hsv', -, -, -, hnn⟩
          rw [hsv] at hsv'
          injection hsv' with hsv''
          subst hsv''
          exact hnn ⟨hcc, hconn⟩
    · rw [if_neg hc1]
      dsimp only
      cases hfn : sv.friendly_name with
      | none =>
        dsimp only
        rw [if_neg Bool.false_ne_true, if_neg Bool.false_ne_true]
        left
        constructor
        · split_ifs <;> simp
        · rintro f0 ⟨sv', hsv', hfn', -, -, -⟩
          rw [hsv] at hsv'
          injection hsv' with hsv''
          subst hsv''
          rw [hfn] at hfn'
          exact Option.noConfusion hfn'
      | some f =>
        dsimp only
        rw [if_neg Bool.false_ne_true]
        by_cases hc2 : truthyList st.friendly_names = true ∧
            f ∈ st.friendly_names.getD []
        · rw [if_pos hc2]
          rcases glRecord_cases connect st u sv (glDrainF f) with
            ⟨c0, hcc2, heq2⟩ | ⟨c, hcc2, hconn2, heq2⟩ | ⟨hcc2, hconn2, heq2⟩
          · rw [heq2]
            dsimp only
            rw [if_neg Bool.false_ne_true]
            right
            exact ⟨sv, f, rfl, hfn, hc2.1, hc2.2,
              fun hx => by rw [hcc2] at hx; exact Option.noConfusion hx.1,
              by split_ifs <;> simp⟩
          · rw [heq2]
            dsimp only
            rw [if_neg Bool.false_ne_true]
            right
            exact ⟨sv, f, rfl, hfn, hc2.1, hc2.2,
              fun hx => by rw [hconn2] at hx; exact Option.noConfusion hx.2,
              by split_ifs <;> simp⟩
          · rw [heq2]
            dsimp only
            rw [if_pos rfl]
            left
            constructor
            · rfl
            · rintro f0 ⟨sv', hsv', -, -, -, hnn⟩
              rw [hsv] at hsv'
              injection hsv' with hsv''
              subst hsv''
              exact hnn ⟨hcc2, hconn2⟩
        · rw [if_neg hc2]
          dsimp only
          rw [if_neg Bool.false_ne_true]
          left
          constructor
          · split_ifs <;> simp
          · rintro f0 ⟨sv', hsv', hfn', ht0, hm0, -⟩
            rw [hsv] at hsv'
            injection hsv' with hsv''
            subst hsv''
            rw [hfn] at hfn'
            injection hfn' with hfn''
            subst hfn''
            exact hc2 ⟨ht0, hm0⟩

/-- One `discover_listed_chromecasts` callback invocation: a requested name
`f0` survives in the (duplicate-free) remaining name list exactly when the
invocation did not name-match it. -/
theorem listedCallback_fns_exact (st : DLState) (u : UUID) (f0 : String)
    (l : List String) (hl : st.friendly_names = some l) (hnd : l.Nodup) :
    ∃ l', (listedCallback st u).friendly_names = some l' ∧ l'.Nodup ∧
      (f0 ∈ l' ↔ (f0 ∈ l ∧ ¬ dlNameMatched st u f0)) := by
  rcases listedCallback_fns_cases st u with
    ⟨heq, hnm⟩ | ⟨sv, f, hsv, hfn, ht, hmf, heq⟩
  · refine ⟨l, by rw [heq, hl], hnd, ?_⟩
    exact ⟨fun h => ⟨h, hnm f0⟩, fun h => h.1⟩
  · refine ⟨l.erase f, by rw [heq, hl]; rfl, hnd.erase f, ?_⟩
    by_cases hff : f0 = f
    · subst hff
      constructor
      · intro h
        exact absurd h hnd.not_mem_erase
      · rintro ⟨-, hm⟩
        rw [hl] at ht hmf
        exact absurd ⟨sv, hsv, hfn, by rw [hl]; exact ht,
          by rw [hl]; exact hmf⟩ hm
    · rw [List.mem_erase_of_ne hff]
      constructor
      · intro h
        refine ⟨h, ?_⟩
        rintro ⟨sv', hsv', hfn', -, -⟩
        rw [hsv] at hsv'
        injection hsv' with hsv''
        subst hsv''
        rw [hfn] at hfn'
        injection hfn' with hfn''
        exact hff hfn''.symm
      · exact fun h => h.1

/-- One `get_listed_chromecasts` callback invocation: a requested name `f0`
survives in the (duplicate-free) remaining name list exactly when the
invocation did not complete a name match on it. -/
theorem glCallback_fns_exact (connect : UUID → CastRecord → Option CastRecord)
    (st : GLState) (u : UUID) (f0 : String)
    (l : List String) (hl : st.friendly_names = some l) (hnd : l.Nodup) :
    ∃ l', (glCallback connect st u).1.friendly_names = some l' ∧ l'.Nodup ∧
      (f0 ∈ l' ↔ (f0 ∈ l ∧ ¬ glNameMatched connect st u f0)) := by
  rcases glCallback_fns_cases connect st u with
    ⟨heq, hnm⟩ | ⟨sv, f, hsv, hfn, ht, hmf, hnn, heq⟩
  · refine ⟨l, by rw [heq, hl], hnd, ?_⟩
    exact ⟨fun h => ⟨h, hnm f0⟩, fun h => h.1⟩
  · refine ⟨l.erase f, by rw [heq, hl]; rfl, hnd.erase f, ?_⟩
    by_cases hff : f0 = f
    · subst hff
      constructor
      · intro h
        exact absurd h hnd.not_mem_erase
      · rintro ⟨-, hm⟩
        exact absurd ⟨sv, hsv, hfn, ht, hmf, hnn⟩ hm
    · rw [List.mem_erase_of_ne hff]
      constructor
      · intro h
        refine ⟨h, ?_⟩
        rintro ⟨sv', hsv', hfn', -, -, -⟩
        rw [hsv] at hsv'
        injection hsv' with hsv''
        subst hsv''
        rw [hfn] at hfn'
        injection hfn' with hfn''
        exact hff hfn''.symm
      · exact fun h => h.1

/-- Some callback invocation delivered for this notification list
name-matches `f0` (`discover_listed_chromecasts` session). -/
def dlNotifsNameMatched (f0 : String) : DLState → List Notification → Prop
  | _, [] => False
  | st, nu :: ns =>
    match nu with
    | Notification.added u _ =>
      dlNameMatched st u f0 ∨ dlNotifsNameMatched f0 (listedCallback st u) ns
    | _ => dlNotifsNameMatched f0 st ns

/-- Some callback invocation triggered by this event name-matches `f0`
(`discover_listed_chromecasts` session). -/
def dlStepNameMatched (f0 : String) (st : DLState) : SessEvent → Prop
  | SessEvent.addEv z n =>
    dlNotifsNameMatched f0
      { st with services := (add_service (dlListener st) z n).1.services }
      (add_service (dlListener st) z n).2.1
  | SessEvent.updateEv z n =>
    dlNotifsNameMatched f0
      { st with services := (update_service (dlListener st) z n).1.services }
      (update_service (dlListener st) z n).2.1
  | SessEvent.removeEv n =>
    dlNotifsNameMatched f0
      { st with services := (remove_service (dlListener st) n).1.services }
      (remove_service (dlListener st) n).2

/-- Some callback invocation during the session name-matches `f0`
(`discover_listed_chromecasts`). -/
def dlRunNameMatched (f0 : String) : DLState → List SessEvent → Prop
  | _, [] => False
  | st, e :: es => dlStepNameMatched f0 st e ∨ dlRunNameMatched f0 (dlStep st e) es

/-- Some callback invocation delivered for this notification list completes a
name match on `f0` (`get_listed_chromecasts` session). -/
def glNotifsNameMatched (connect : UUID → CastRecord → Option CastRecord)
    (f0 : String) : GLState → List Notification → Prop
  | _, [] => False
  | st, nu :: ns =>
    match nu with
    | Notification.added u _ =>
      glNameMatched connect st u f0 ∨
        glNotifsNameMatched connect f0 (glCallback connect st u).1 ns
    | _ => glNotifsNameMatched connect f0 st ns

/-- Some callback invocation triggered by this event completes a name match
on `f0` (`get_listed_chromecasts` session). -/
def glStepNameMatched (connect : UUID → CastRecord → Option CastRecord)
    (f0 : String) (st : GLState) : SessEvent → Prop
  | SessEvent.addEv z n =>
    glNotifsNameMatched connect f0
      { st with services := (add_service (glListener st) z n).1.services }
      (add_service (glListener st) z n).2.1
  | SessEvent.updateEv z n =>
    glNotifsNameMatched connect f0
      { st with services := (update_service (glListener st) z n).1.services }
      (update_service (glListener st) z n).2.1
  | SessEvent.removeEv n =>
    glNotifsNameMatched connect f0
      { st with services := (remove_service (glListener st) n).1.services }
      (remove_service (glListener st) n).2

/-- Some callback invocation during the session completes a name match on
`f0` (`get_listed_chromecasts`). -/
def glRunNameMatched (connect : UUID → CastRecord → Option CastRecord)
    (f0 : String) : GLState → List SessEvent → Prop
  | _, [] => False
  | st, e :: es =>
    glStepNameMatched connect f0 st e ∨
      glRunNameMatched connect f0 (glStep connect st e) es

/-- Delivering a notification list: `f0` survives exactly when no delivered
invocation name-matches it. -/
theorem dlNotifs_fns_exact (f0 : String) (ns : List Notification)
    (st : DLState) (l : List String)
    (hl : st.friendly_names = some l) (hnd : l.Nodup) :
    ∃ l', (dlApplyNotifs st ns).friendly_names = some l' ∧ l'.Nodup ∧
      (f0 ∈ l' ↔ (f0 ∈ l ∧ ¬ dlNotifsNameMatched f0 st ns)) := by
  induction ns generalizing st l with
  | nil =>
    refine ⟨l, hl, hnd, ?_⟩
    have hm : dlNotifsNameMatched f0 st [] = False := rfl
    rw [hm]
    tauto
  | cons nu ns ih =>
    cases nu with
    | added u n =>
      obtain ⟨l1, h1, hnd1, hiff1⟩ := listedCallback_fns_exact st u f0 l hl hnd
      obtain ⟨l', h', hnd', hiff'⟩ := ih (listedCallback st u) l1 h1 hnd1
      refine ⟨l', h', hnd', ?_⟩
      have hm : dlNotifsNameMatched f0 st (Notification.added u n :: ns) =
          (dlNameMatched st u f0 ∨
            dlNotifsNameMatched f0 (listedCallback st u) ns) := rfl
      rw [hm, hiff', hiff1]
      tauto
    | updated u n =>
      obtain ⟨l', h', hnd', hiff'⟩ := ih st l hl hnd
      refine ⟨l', h', hnd', ?_⟩
      have hm : dlNotifsNameMatched f0 st (Notification.updated u n :: ns) =
          dlNotifsNameMatched f0 st ns := rfl
      rw [hm, hiff']
    | removed u n r =>
      obtain ⟨l', h', hnd', hiff'⟩ := ih st l hl hnd
      refine ⟨l', h', hnd', ?_⟩
      have hm : dlNotifsNameMatched f0 st (Notification.removed u n r :: ns) =
          dlNotifsNameMatched f0 st ns := rfl
      rw [hm, hiff']

/-- One session event: `f0` survives exactly when no invocation triggered by
the event name-matches it. -/
theorem dlStep_fns_exact (f0 : String) (e : SessEvent) (st : DLState)
    (l : List String) (hl : st.friendly_names = some l) (hnd : l.Nodup) :
    ∃ l', (dlStep st e).friendly_names = some l' ∧ l'.Nodup ∧
      (f0 ∈ l' ↔ (f0 ∈ l ∧ ¬ dlStepNameMatched f0 st e)) := by
  cases e with
  | addEv z n => exact dlNotifs_fns_exact f0 _ _ l hl hnd
  | updateEv z n => exact dlNotifs_fns_exact f0 _ _ l hl hnd
  | removeEv n => exact dlNotifs_fns_exact f0 _ _ l hl hnd

/-- A whole `discover_listed_chromecasts` session: `f0` survives exactly when
no invocation during the session name-matches it. -/
theorem dlRun_fns_exact (f0 : String) (es : List SessEvent) (st : DLState)
    (l : List String) (hl : st.friendly_names = some l) (hnd : l.Nodup) :
    ∃ l', (dlRun st es).friendly_names = some l' ∧ l'.Nodup ∧
      (f0 ∈ l' ↔ (f0 ∈ l ∧ ¬ dlRunNameMatched f0 st es)) := by
  induction es generalizing st l with
  | nil =>
    refine ⟨l, hl, hnd, ?_⟩
    have hm : dlRunNameMatched f0 st [] = False := rfl
    rw [hm]
    tauto
  | cons e es ih =>
    obtain ⟨l1, h1, hnd1, hiff1⟩ := dlStep_fns_exact f0 e st l hl hnd
    obtain ⟨l', h', hnd', hiff'⟩ := ih (dlStep st e) l1 h1 hnd1
    refine ⟨l', h', hnd', ?_⟩
    have hm : dlRunNameMatched f0 st (e :: es) =
        (dlStepNameMatched f0 st e ∨ dlRunNameMatched f0 (dlStep st e) es) :=
      rfl
    rw [hm, hiff', hiff1]
    tauto

/-- Delivering a notification list (`get_listed_chromecasts`): `f0` survives
exactly when no delivered invocation completes a name match on it. -/
theorem glNotifs_fns_exact (connect : UUID → CastRecord → Option CastRecord)
    (f0 : String) (ns : List Notification) (st : GLState) (l : List String)
    (hl : st.friendly_names = some l) (hnd : l.Nodup) :
    ∃ l', (glApplyNotifs connect st ns).friendly_names = some l' ∧ l'.Nodup ∧
      (f0 ∈ l' ↔ (f0 ∈ l ∧ ¬ glNotifsNameMatched connect f0 st ns)) := by
  induction ns generalizing st l with
  | nil =>
    refine ⟨l, hl, hnd, ?_⟩
    have hm : glNotifsNameMatched connect f0 st [] = False := rfl
    rw [hm]
    tauto
  | cons nu ns ih =>
    cases nu with
    | added u n =>
      obtain ⟨l1, h1, hnd1, hiff1⟩ :=
        glCallback_fns_exact connect st u f0 l hl hnd
      obtain ⟨l', h', hnd', hiff'⟩ := ih (glCallback connect st u).1 l1 h1 hnd1
      refine ⟨l', h', hnd', ?_⟩
      have hm : glNotifsNameMatched connect f0 st
            (Notification.added u n :: ns) =
          (glNameMatched connect st u f0 ∨
            glNotifsNameMatched connect f0 (glCallback connect st u).1 ns) :=
        rfl
      rw [hm, hiff', hiff1]
      tauto
    | updated u n =>
      obtain ⟨l', h', hnd', hiff'⟩ := ih st l hl hnd
      refine ⟨l', h', hnd', ?_⟩
      have hm : glNotifsNameMatched connect f0 st
            (Notification.updated u n :: ns) =
          glNotifsNameMatched connect f0 st ns := rfl
      rw [hm, hiff']
    | removed u n r =>
      obtain ⟨l', h', hnd', hiff'⟩ := ih st l hl hnd
      refine ⟨l', h', hnd', ?_⟩
      have hm : glNotifsNameMatched connect f0 st
            (Notification.removed u n r :: ns) =
          glNotifsNameMatched connect f0 st ns := rfl
      rw [hm, hiff']

/-- One session event (`get_listed_chromecasts`): `f0` survives exactly when
no invocation triggered by the event completes a name match on it. -/
theorem glStep_fns_exact (connect : UUID → CastRecord → Option CastRecord)
    (f0 : String) (e : SessEvent) (st : GLState) (l : List String)
    (hl : st.friendly_names = some l) (hnd : l.Nodup) :
    ∃ l', (glStep connect st e).friendly_names = some l' ∧ l'.Nodup ∧
      (f0 ∈ l' ↔ (f0 ∈ l ∧ ¬ glStepNameMatched connect f0 st e)) := by
  cases e with
  | addEv z n => exact glNotifs_fns_exact connect f0 _ _ l hl hnd
  | updateEv z n => exact glNotifs_fns_exact connect f0 _ _ l hl hnd
  | removeEv n => exact glNotifs_fns_exact connect f0 _ _ l hl hnd

/-- A whole `get_listed_chromecasts` session: `f0` survives exactly when no
invocation during the session completes a name match on it. -/
theorem glRun_fns_exact (connect : UUID → CastRecord → Option CastRecord)
    (f0 : String) (es : List SessEvent) (st : GLState) (l : List String)
    (hl : st.friendly_names = some l) (hnd : l.Nodup) :
    ∃ l', (glRun connect st es).friendly_names = some l' ∧ l'.Nodup ∧
      (f0 ∈ l' ↔ (f0 ∈ l ∧ ¬ glRunNameMatched connect f0 st es)) := by
  induction es generalizing st l with
  | nil =>
    refine ⟨l, hl, hnd, ?_⟩
    have hm : glRunNameMatched connect f0 st [] = False := rfl
    rw [hm]
    tauto
  | cons e es ih =>
    obtain ⟨l1, h1, hnd1, hiff1⟩ := glStep_fns_exact connect f0 e st l hl hnd
    obtain ⟨l', h', hnd', hiff'⟩ := ih (glStep connect st e) l1 h1 hnd1
    refine ⟨l', h', hnd', ?_⟩
    have hm : glRunNameMatched connect f0 st (e :: es) =
        (glStepNameMatched connect f0 st e ∨
          glRunNameMatched connect f0 (glStep connect st e) es) := rfl
    rw [hm, hiff', hiff1]
    tauto

/-- C10.  Both set-bound sessions mutate the caller-supplied `uuids` and
`friendly_names` collections only by removing matched keys: a callback
invocation either leaves a collection untouched or erases exactly the matched
key (`list.remove`); over a whole session each collection ends as a sublist of
the caller's original object; for any requested identity in a duplicate-free
`uuids` argument, after the session the identity remains in the caller's
collection exactly when nothing was recorded for it in the result dict; and
for any requested name in a duplicate-free `friendly_names` argument, after
the session the name remains exactly when no callback invocation during the
session matched it (a delivered record whose friendly name equals the
requested name while it was still in the remaining list — completing the
match, for `get_listed_chromecasts`, without a connection failure).  Each
argument thus ends up holding exactly the criteria that were never matched.
(In `get_listed_chromecasts` a candidate whose construction failed is not
recorded and its key correspondingly remains, consistent with C9.) -/
theorem C10_caller_collections_drained :
    (∀ (st : DLState) (u : UUID),
      ((listedCallback st u).uuids = st.uuids ∨
        (truthyList st.uuids = true ∧
          (listedCallback st u).uuids = some ((st.uuids.getD []).erase u))) ∧
      ((listedCallback st u).friendly_names = st.friendly_names ∨
        (truthyList st.friendly_names = true ∧
          ∃ f, (listedCallback st u).friendly_names =
            some ((st.friendly_names.getD []).erase f)))) ∧
    (∀ (st : DLState) (es : List SessEvent),
      optSub (dlRun st es).uuids st.uuids ∧
      optSub (dlRun st es).friendly_names st.friendly_names) ∧
    (∀ (connect : UUID → CastRecord → Option CastRecord) (st : GLState)
      (es : List SessEvent),
      optSub (glRun connect st es).uuids st.uuids ∧
      optSub (glRun connect st es).friendly_names st.friendly_names) ∧
    (∀ (st : DLState) (es : List SessEvent) (l0 : List UUID) (u0 : UUID),
      st.uuids = some l0 → l0.Nodup → lookupA st.cc_list u0 = none →
      u0 ∈ l0 →
      ∃ l1, (dlRun st es).uuids = some l1 ∧
        (u0 ∈ l1 ↔ lookupA (dlRun st es).cc_list u0 = none)) ∧
    (∀ (connect : UUID → CastRecord → Option CastRecord) (st : GLState)
      (es : List SessEvent) (l0 : List UUID) (u0 : UUID),
      st.uuids = some l0 → l0.Nodup → lookupA st.cc_list u0 = none →
      u0 ∈ l0 →
      ∃ l1, (glRun connect st es).uuids = some l1 ∧
        (u0 ∈ l1 ↔ lookupA (glRun connect st es).cc_list u0 = none)) ∧
    (∀ (st : DLState) (es : List SessEvent) (l0 : List String) (f0 : String),
      st.friendly_names = some l0 → l0.Nodup → f0 ∈ l0 →
      ∃ l1, (dlRun st es).friendly_names = some l1 ∧
        (f0 ∈ l1 ↔ ¬ dlRunNameMatched f0 st es)) ∧
    (∀ (connect : UUID → CastRecord → Option CastRecord) (st : GLState)
      (es : List SessEvent) (l0 : List String) (f0 : String),
      st.friendly_names = some l0 → l0.Nodup → f0 ∈ l0 →
      ∃ l1, (glRun connect st es).friendly_names = some l1 ∧
        (f0 ∈ l1 ↔ ¬ glRunNameMatched connect f0 st es)) := by
  refine ⟨?_, ?_, ?_, ?_, ?_, ?_, ?_⟩
  · intro st u
    obtain ⟨_, hu, hf, _⟩ := listedCallback_master st u
    exact ⟨hu, hf⟩
  · intro st es
    exact dlRun_optSub es st
  · intro connect st es
    exact glRun_optSub connect es st
  · intro st es l0 u0 hl hnd hcc hmem
    obtain ⟨l1, h1, _, hiff⟩ := dlRun_RemInv es
      ⟨l0, hl, hnd, ⟨fun _ => hcc, fun _ => hmem⟩⟩
    exact ⟨l1, h1, hiff⟩
  · intro connect st es l0 u0 hl hnd hcc hmem
    obtain ⟨l1, h1, _, hiff⟩ := glRun_RemInv connect es
      ⟨l0, hl, hnd, ⟨fun _ => hcc, fun _ => hmem⟩⟩
    exact ⟨l1, h1, hiff⟩
  · intro st es l0 f0 hl hnd hmem
    obtain ⟨l1, h1, _, hiff⟩ := dlRun_fns_exact f0 es st l0 hl hnd
    refine ⟨l1, h1, ?_⟩
    rw [hiff]
    exact ⟨fun h => h.2, fun h => ⟨hmem, h⟩⟩
  · intro connect st es l0 f0 hl hnd hmem
    obtain ⟨l1, h1, _, hiff⟩ := glRun_fns_exact connect f0 es st l0 hl hnd
    refine ⟨l1, h1, ?_⟩
    rw [hiff]
    exact ⟨fun h => h.2, fun h => ⟨hmem, h⟩⟩

/-- Witness for C10 at concrete sessions with one resolved add event: the
identity-exactness conclusion at `dlW`, and the name-exactness conclusion at
a session requesting the friendly name "Living Room"; all hypotheses
discharged at these inputs. -/
theorem C10_caller_collections_drained_witness :
    (∃ l1, (dlRun dlW [SessEvent.addEv zOk "n1"]).uuids = some l1 ∧
      ("u1" ∈ l1 ↔
        lookupA (dlRun dlW [SessEvent.addEv zOk "n1"]).cc_list "u1" = none)) ∧
    (∃ l1, (dlRun ⟨[("u1", recW)], [], none, some ["Living Room"], false⟩
        [SessEvent.addEv zOk "n1"]).friendly_names = some l1 ∧
      ("Living Room" ∈ l1 ↔
        ¬ dlRunNameMatched "Living Room"
          ⟨[("u1", recW)], [], none, some ["Living Room"], false⟩
          [SessEvent.addEv zOk "n1"])) :=
  ⟨C10_caller_collections_drained.2.2.2.1 dlW [SessEvent.addEv zOk "n1"]
      ["u1"] "u1" rfl (by decide) rfl (by decide),
    C10_caller_collections_drained.2.2.2.2.2.1
      ⟨[("u1", recW)], [], none, some ["Living Room"], false⟩
      [SessEvent.addEv zOk "n1"] ["Living Room"] "Living Room"
      rfl (by decide) (by decide)⟩
